import Mathlib

/- Verification of the FormBridgeAI/formAccessor conversational form-filling
   engine against its design document.

   Part 1 embeds the concrete script `src/server/index.js`: the hard-coded
   `jsonSchema` literal, the initial `messages` array and the `getResponse`
   routine, with the OpenAI chat completion calls abstracted as an oracle
   (call index to reply-or-error, matching the try/catch in the source).

   Part 2 models the engine components the design document describes
   (Schema Model, Session State, Extractor, Validator, Orchestrator,
   Completion Assembler); these components have no implementation in the
   repository sources, so they are modelled from the specification text. -/

namespace FormAccessor

/-! ## Part 1: embedding of `src/server/index.js` -/

structure BoundingBox where
  x : Nat
  y : Nat
  width : Nat
  height : Nat
deriving DecidableEq, Repr

structure Grouping where
  visualGroup : String
  logicalRule : Option String
deriving DecidableEq, Repr

structure Accessibility where
  screenReaderHint : String
  nestedOptions : Option (List String)
  nestedValue : Option (Option String)
  nestedRequired : Option Bool
  tabOrder : Nat
deriving DecidableEq, Repr

structure JsField where
  id : String
  label : String
  ftype : String
  options : Option (List String)
  value : Option String
  required : Bool
  boundingBox : BoundingBox
  grouping : Grouping
  accessibility : Accessibility
deriving DecidableEq, Repr

structure JsonSchema where
  formTitle : String
  formId : String
  fields : List JsField
deriving DecidableEq, Repr

/-- The `jsonSchema` object literal of `src/server/index.js` (lines 7-87),
including the malformed nested options/value/required block inside the
third field's `accessibility` object. -/
def jsonSchema : JsonSchema :=
  { formTitle := "Medical Intake Form"
    formId := "form_001"
    fields :=
      [ { id := "field_01"
          label := "Full Name"
          ftype := "text"
          options := none
          value := none
          required := true
          boundingBox := ⟨100, 200, 300, 30⟩
          grouping := ⟨"Personal Info", none⟩
          accessibility :=
            { screenReaderHint := "Enter your full legal name"
              nestedOptions := none
              nestedValue := none
              nestedRequired := none
              tabOrder := 1 } }
      , { id := "field_02"
          label := "Date of Birth"
          ftype := "date"
          options := none
          value := none
          required := true
          boundingBox := ⟨100, 250, 200, 30⟩
          grouping := ⟨"Personal Info", none⟩
          accessibility :=
            { screenReaderHint := "Enter date in MM/DD/YYYY format"
              nestedOptions := none
              nestedValue := none
              nestedRequired := none
              tabOrder := 2 } }
      , { id := "field_03"
          label := "Gender"
          ftype := "radio"
          options := some ["Male", "Female", "Other"]
          value := none
          required := false
          boundingBox := ⟨100, 300, 300, 60⟩
          grouping := ⟨"Demographics", some "selectOne"⟩
          accessibility :=
            { screenReaderHint := "Select one Race option"
              nestedOptions := some
                [ "Asian"
                , "Black or African American"
                , "Hispanic or Latino"
                , "Native American or Alaska Native"
                , "Native Hawaiian or Pacific Islander"
                , "White"
                , "Two or More Races"
                , "Prefer not to say" ]
              nestedValue := some none
              nestedRequired := some false
              tabOrder := 3 } } ] }

structure Msg where
  role : String
  content : String
deriving DecidableEq, Repr

/-- Leading text of the single seed message of the `messages` array
(lines 88-93); the schema is appended via `JSON.stringify`, which we keep
abstract as the schema's `Repr` rendering since no claim inspects it. -/
def promptHeader : String :=
  "You are a helpful assistant guiding someone through filling out a digital form. Ask only one clear and friendly question at a time based on the fields in this JSON schema. Prioritize required fields first, and wait for user input before continuing.\n\nwhen finshed with the form send it back to the user completely filled out in a neat form Here is the JSON schema:\n\n"

def promptText : String := promptHeader ++ reprStr jsonSchema

def initialMessages : List Msg := [⟨"user", promptText⟩]

structure ProgState where
  schema : JsonSchema
  messages : List Msg
  log : List String
deriving DecidableEq, Repr

def initialState : ProgState :=
  { schema := jsonSchema, messages := initialMessages, log := [] }

/-- One `openai.chat.completions.create` call outcome: the n-th call either
returns a reply string or throws (network failure, timeout, ...). -/
def Oracle : Type := Nat → Except String String

def errLog (e : String) : String := "Error getting response: " ++ e

/-- The `getResponse` routine of `src/server/index.js` (lines 95-133).
The five chat completion calls are numbered 0-4 in source order; an
`error` result models a thrown exception, which the surrounding
try/catch turns into a single `console.error` line and an early return.
Console output is collected in `log`; `messages.push` calls become list
appends in source order. -/
def getResponse (oracle : Oracle) (s0 : ProgState) : ProgState :=
  match oracle 0 with
  | .error e => { s0 with log := s0.log ++ [errLog e] }
  | .ok repy =>
    let s1 : ProgState :=
      { s0 with
        log := s0.log ++ ["BOT:" ++ repy]
        messages := s0.messages ++ [⟨"assistant", repy⟩, ⟨"user", "Youdahe Asfaw"⟩] }
    match oracle 1 with
    | .error e => { s1 with log := s1.log ++ [errLog e] }
    | .ok dobReply =>
      let s2 : ProgState :=
        { s1 with
          log := s1.log ++ ["BOT:" ++ dobReply]
          messages := s1.messages ++ [⟨"assistant", dobReply⟩, ⟨"user", "04/29/2006"⟩] }
      match oracle 2 with
      | .error e => { s2 with log := s2.log ++ [errLog e] }
      | .ok dobContent =>
        let s3 : ProgState := { s2 with log := s2.log ++ [dobContent] }
        match oracle 3 with
        | .error e => { s3 with log := s3.log ++ [errLog e] }
        | .ok genderReply =>
          let s4 : ProgState :=
            { s3 with
              log := s3.log ++ ["BOT:" ++ genderReply]
              messages := s3.messages ++ [⟨"assistant", genderReply⟩, ⟨"user", "Male"⟩] }
          match oracle 4 with
          | .error e => { s4 with log := s4.log ++ [errLog e] }
          | .ok finalContent => { s4 with log := s4.log ++ [finalContent] }

/-- Contents of the user-role messages pushed onto `messages` by
`getResponse` (everything after the seed message). -/
def userAppended (s : ProgState) : List String :=
  ((s.messages.drop initialMessages.length).filter (fun m => m.role == "user")).map
    (fun m => m.content)

def scriptedUserLines : List String := ["Youdahe Asfaw", "04/29/2006", "Male"]

def okOracle : Oracle := fun _ => .ok "ok"

def failOracle : Oracle := fun _ => .error "boom"

/-! ## Part 2: the engine described by the design document

The Schema Model, Session State, Answer Extractor, Field Validator,
Dialogue Orchestrator and Completion Assembler have no implementation in
the repository sources (the script above hard-codes one conversation), so
they are modelled from the specification text, sections 3-4.6. -/

/-- Modelled from the spec: field `type` enumeration (section 3; the
repository contains no Field data type). -/
inductive FieldType
  | text
  | date
  | singleSelect
  | multiSelect
deriving DecidableEq, Repr

/-- Modelled from the spec: grouping logical rule (section 3 names
`selectOne` as the rule constraining grouped fields). -/
inductive LogicalRule
  | selectOne
deriving DecidableEq, Repr

structure GroupSpec where
  key : String
  rule : LogicalRule
deriving DecidableEq, Repr

/-- Modelled from the spec: the Field record of section 3 (the repository
has no engine-level Field type, only the JSON literal of Part 1). -/
structure SField where
  id : String
  label : String
  ftype : FieldType
  options : List String
  required : Bool
  group : Option GroupSpec
  accessibilityHint : String
  tabOrder : Nat
deriving DecidableEq, Repr

/-- Modelled from the spec: the Form Schema record of section 3. -/
structure FormSchema where
  id : String
  title : String
  fields : List SField
deriving DecidableEq, Repr

/-- Modelled from the spec: a raw (unvalidated) field definition as consumed
by the Schema Model of section 4.1. -/
structure RawField where
  id : String
  label : String
  ftype : FieldType
  options : List String
  required : Bool
  accessibilityHint : String
  tabOrder : Nat
deriving DecidableEq, Repr

/-- Modelled from the spec: a raw grouping rule naming its member fields
(section 4.1 speaks of a grouping rule referencing fields of the schema). -/
structure RawGroup where
  key : String
  rule : LogicalRule
  members : List String
deriving DecidableEq, Repr

structure RawSchema where
  id : String
  title : String
  fields : List RawField
  groups : List RawGroup
deriving DecidableEq, Repr

/-- Modelled from the spec: the `SchemaError` cases of section 4.1. -/
inductive SchemaError
  | duplicateId
  | emptyOptions
  | duplicateTabOrder
  | unknownGroupMember
deriving DecidableEq, Repr

def isSelect : FieldType → Bool
  | .singleSelect => true
  | .multiSelect => true
  | _ => false

def assignGroup (gs : List RawGroup) (id : String) : Option GroupSpec :=
  match gs.find? (fun g => g.members.any (fun m => m == id)) with
  | some g => some ⟨g.key, g.rule⟩
  | none => none

def mkField (gs : List RawGroup) (f : RawField) : SField :=
  { id := f.id
    label := f.label
    ftype := f.ftype
    options := f.options
    required := f.required
    group := assignGroup gs f.id
    accessibilityHint := f.accessibilityHint
    tabOrder := f.tabOrder }

/-- Modelled from the spec: the Schema Model constructor of section 4.1,
failing with `SchemaError` on a duplicated id, a select field with an
empty option list, a duplicated tabOrder, or a grouping rule referencing
an absent field (no schema parser exists in the repository sources). -/
def mkSchema (raw : RawSchema) : Except SchemaError FormSchema :=
  if ¬ (raw.fields.map (fun f => f.id)).Nodup then .error .duplicateId
  else if raw.fields.any (fun f => isSelect f.ftype && f.options.isEmpty) then
    .error .emptyOptions
  else if ¬ (raw.fields.map (fun f => f.tabOrder)).Nodup then .error .duplicateTabOrder
  else if raw.groups.any
      (fun g => g.members.any (fun m => !(raw.fields.any (fun f => f.id == m)))) then
    .error .unknownGroupMember
  else .ok { id := raw.id, title := raw.title, fields := raw.fields.map (mkField raw.groups) }

/-- Modelled from the spec: the declarative version of the four failure
conditions of section 4.1, used to state the Schema Model contract. -/
def RawBad (raw : RawSchema) : Prop :=
  ¬ (raw.fields.map (fun f => f.id)).Nodup
  ∨ (∃ f ∈ raw.fields, isSelect f.ftype = true ∧ f.options = [])
  ∨ ¬ (raw.fields.map (fun f => f.tabOrder)).Nodup
  ∨ (∃ g ∈ raw.groups, ∃ m ∈ g.members, m ∉ raw.fields.map (fun f => f.id))

/-- Modelled from the spec: per-field answer state of a Session
(section 3: answered, unanswered; section 4.3: explicit not-selected;
section 4.5: skipped). -/
inductive AnswerState
  | unanswered
  | answered (v : String)
  | notSelected
  | skipped
deriving DecidableEq, Repr

/-- Modelled from the spec: Session `status` values (sections 3 and 4.5). -/
inductive SessionStatus
  | inProgress
  | awaitingClarification
  | complete
  | failed
deriving DecidableEq, Repr

/-- Modelled from the spec: rejection reasons of sections 4.3, 7 and 8. -/
inductive RejectReason
  | missingRequiredValue
  | notInOptionSet
  | groupConflict
  | noMatch
deriving DecidableEq, Repr

inductive Outcome
  | acceptedOut (v : String)
  | rejectedOut (r : RejectReason)
deriving DecidableEq, Repr

/-- Modelled from the spec: the Session record of section 3 (answers map,
cursor, history, status) plus the per-field retry counters of section 4.5
(no Session type exists in the repository sources). -/
structure Session where
  answers : List (String × AnswerState)
  cursor : Option String
  history : List (String × String × Outcome)
  retries : List (String × Nat)
  status : SessionStatus
deriving DecidableEq, Repr

/-- Modelled from the spec: `create(schema)` of section 4.2 initializes
every field to unanswered, cursor to none, status to in-progress. -/
def create (sch : FormSchema) : Session :=
  { answers := sch.fields.map (fun f => (f.id, AnswerState.unanswered))
    cursor := none
    history := []
    retries := sch.fields.map (fun f => (f.id, 0))
    status := .inProgress }

def getAnswer (s : Session) (id : String) : AnswerState :=
  (s.answers.lookup id).getD .unanswered

def getRetry (s : Session) (id : String) : Nat :=
  (s.retries.lookup id).getD 0

def answeredNonEmpty (s : Session) (id : String) : Bool :=
  match getAnswer s id with
  | .answered v => !(v == "")
  | _ => false

def inSelectOneGroup (f : SField) (k : String) : Bool :=
  match f.group with
  | some g => g.key == k
  | none => false

def idInSelectOneGroup (sch : FormSchema) (id k : String) : Bool :=
  sch.fields.any (fun h => h.id == id && inSelectOneGroup h k)

def groupResolved (sch : FormSchema) (s : Session) (k : String) : Bool :=
  sch.fields.any (fun h => inSelectOneGroup h k && answeredNonEmpty s h.id)

def groupBlocked (sch : FormSchema) (s : Session) (f : SField) : Bool :=
  match f.group with
  | some g => groupResolved sch s g.key
  | none => false

/-- Modelled from the spec: section 4.5, `SelectingField` considers fields
still unanswered whose group has not been resolved by a sibling. -/
def askable (sch : FormSchema) (s : Session) (f : SField) : Bool :=
  (getAnswer s f.id == AnswerState.unanswered) && !(groupBlocked sch s f)

def pickMin : List SField → Option SField
  | [] => none
  | f :: rest =>
    match pickMin rest with
    | none => some f
    | some g => if f.tabOrder ≤ g.tabOrder then some f else some g

/-- Modelled from the spec: section 4.5, the next field to offer is the
askable field of least `tabOrder`. -/
def currentField (sch : FormSchema) (s : Session) : Option SField :=
  pickMin (sch.fields.filter (askable sch s))

def allRequiredDone (sch : FormSchema) (s : Session) : Bool :=
  sch.fields.all (fun f =>
    !f.required ||
      (match getAnswer s f.id with
       | .answered _ => true
       | .notSelected => true
       | _ => false))

def lowerStr (s : String) : String := ⟨s.data.map Char.toLower⟩

def isWsChar (c : Char) : Bool := c == ' ' || c == '\t' || c == '\n' || c == '\r'

def trimStr (s : String) : String :=
  ⟨((s.data.dropWhile isWsChar).reverse.dropWhile isWsChar).reverse⟩

def digitChar (n : Nat) : Char := Char.ofNat (48 + n % 10)

def pad2 (n : Nat) : List Char := [digitChar (n / 10), digitChar n]

def pad4 (n : Nat) : List Char :=
  [digitChar (n / 1000), digitChar (n / 100), digitChar (n / 10), digitChar n]

def natOfDigitsAux : List Char → Nat → Option Nat
  | [], acc => some acc
  | c :: rest, acc =>
    if c.isDigit then natOfDigitsAux rest (acc * 10 + (c.toNat - 48)) else none

def natOfDigits : List Char → Option Nat
  | [] => none
  | c :: rest => natOfDigitsAux (c :: rest) 0

def splitSlashAux : List Char → List Char → List (List Char) → List (List Char)
  | [], cur, acc => acc ++ [cur.reverse]
  | c :: rest, cur, acc =>
    if c = '/' then splitSlashAux rest [] (acc ++ [cur.reverse])
    else splitSlashAux rest (c :: cur) acc

def splitSlash (s : String) : List (List Char) := splitSlashAux s.data [] []

def leapYear (y : Nat) : Bool := (y % 4 == 0 && !(y % 100 == 0)) || y % 400 == 0

def daysInMonth (y m : Nat) : Nat :=
  if m == 2 then (if leapYear y then 29 else 28)
  else if m == 4 || m == 6 || m == 9 || m == 11 then 30
  else 31

/-- Modelled from the spec: section 4.3 requires a `date` candidate to parse
to a calendar date, and Scenario A shows the MM/DD/YYYY input format of the
schema hint normalized to YYYY-MM-DD. -/
def parseDate (s : String) : Option String :=
  match splitSlash s with
  | [ms, ds, ys] =>
    match natOfDigits ms, natOfDigits ds, natOfDigits ys with
    | some m, some d, some y =>
      if 1 ≤ m ∧ m ≤ 12 ∧ 1 ≤ d ∧ d ≤ daysInMonth y m ∧ ys.length = 4 then
        some (String.mk (pad4 y ++ ('-' :: pad2 m) ++ ('-' :: pad2 d)))
      else none
    | _, _, _ => none
  | _ => none

inductive VResult
  | accepted (v : String)
  | rejected (r : RejectReason)
deriving DecidableEq, Repr

/-- Modelled from the spec: section 4.3, select candidates must
case-insensitively match one option and are normalized to the canonical
option string. -/
def matchOption (opts : List String) (cand : String) : VResult :=
  match opts.find? (fun o => lowerStr o == lowerStr cand) with
  | some o => .accepted o
  | none => .rejected .notInOptionSet

/-- Modelled from the spec: section 4.3, a non-empty candidate for a
selectOne-grouped field conflicts when a sibling of the group already
holds a non-empty value. -/
def conflictsGroup (sch : FormSchema) (s : Session) (f : SField) (cand : String) : Bool :=
  match f.group with
  | some g =>
    !(cand == "") &&
      sch.fields.any (fun h =>
        !(h.id == f.id) && inSelectOneGroup h g.key && answeredNonEmpty s h.id)
  | none => false

/-- Modelled from the spec: the Field Validator contract of section 4.3
(no validator exists in the repository sources). -/
def validate (sch : FormSchema) (s : Session) (f : SField) (cand : String) : VResult :=
  if conflictsGroup sch s f cand then .rejected .groupConflict
  else
    match f.ftype with
    | .text =>
      if cand = "" then
        .rejected (if f.required then .missingRequiredValue else .noMatch)
      else .accepted cand
    | .date =>
      match parseDate cand with
      | some d => .accepted d
      | none => .rejected (if f.required then .missingRequiredValue else .noMatch)
    | .singleSelect => matchOption f.options cand
    | .multiSelect => matchOption f.options cand

/-- Modelled from the spec: one turn's input to the orchestrator — either
an utterance from the user or a timeout of the language-understanding
call (section 5). -/
inductive TurnInput
  | utter (u : String)
  | timeout
deriving DecidableEq, Repr

/-- Modelled from the spec: the Answer Extractor of section 4.4, which
pre-filters empty utterances and treats a timeout of the
language-understanding call as `NoMatch` (section 5). -/
def extract (inp : TurnInput) : Option String :=
  match inp with
  | .timeout => none
  | .utter u => if trimStr u = "" then none else some (trimStr u)

def rawOf : TurnInput → String
  | .utter u => u
  | .timeout => ""

def setAnswers (s : Session) (g : String → AnswerState → AnswerState) : Session :=
  { s with answers := s.answers.map (fun p => (p.1, g p.1 p.2)) }

/-- Modelled from the spec: section 4.3, accepting a non-empty value for a
selectOne-grouped field records the value and sets every sibling of the
group to the explicit not-selected state. -/
def acceptUpdate (sch : FormSchema) (cur : SField) (v : String)
    (id : String) (a : AnswerState) : AnswerState :=
  if id == cur.id then .answered v
  else
    match cur.group with
    | some g => if idInSelectOneGroup sch id g.key then .notSelected else a
    | none => a

def bumpRetry (s : Session) (id : String) : Session :=
  { s with retries := s.retries.map (fun p => (p.1, if p.1 == id then p.2 + 1 else p.2)) }

/-- Modelled from the spec: section 4.5, after a turn the orchestrator
re-selects a field; with none remaining it completes when all required
fields are resolved and otherwise reports the fatal consistency error. -/
def advance (sch : FormSchema) (s : Session) : Session :=
  match currentField sch s with
  | some f => { s with status := .inProgress, cursor := some f.id }
  | none =>
    if allRequiredDone sch s then { s with status := .complete, cursor := none }
    else { s with status := .failed, cursor := none }

def failRecord (s : Session) (cur : SField) (raw : String) (r : RejectReason) : Session :=
  { bumpRetry s cur.id with
    history := s.history ++ [(cur.id, raw, Outcome.rejectedOut r)] }

/-- Modelled from the spec: section 4.5, the Clarifying path — the retry
counter increments, and at the limit of 3 the field is skipped when not
required or the session fails when required. -/
def handleFailure (sch : FormSchema) (s : Session) (cur : SField)
    (raw : String) (r : RejectReason) : Session :=
  if 3 ≤ getRetry s cur.id + 1 then
    if cur.required then { failRecord s cur raw r with status := .failed, cursor := none }
    else
      advance sch
        (setAnswers (failRecord s cur raw r)
          (fun id a => if id == cur.id then .skipped else a))
  else { failRecord s cur raw r with status := .awaitingClarification, cursor := some cur.id }

def acceptRecord (sch : FormSchema) (s : Session) (cur : SField)
    (raw v : String) : Session :=
  { setAnswers s (acceptUpdate sch cur v) with
    history := s.history ++ [(cur.id, raw, Outcome.acceptedOut v)] }

/-- Modelled from the spec: one turn of the Dialogue Orchestrator state
machine of section 4.5 (SelectingField, then Extractor, then Validator,
then record-and-advance or clarify; no orchestrator exists in the
repository sources). -/
def processTurn (sch : FormSchema) (s : Session) (inp : TurnInput) : Session :=
  match s.status with
  | .complete => s
  | .failed => s
  | _ =>
    match currentField sch s with
    | none => advance sch s
    | some cur =>
      match extract inp with
      | none => handleFailure sch s cur (rawOf inp) .noMatch
      | some cand =>
        match validate sch s cur cand with
        | .accepted v => advance sch (acceptRecord sch s cur (rawOf inp) v)
        | .rejected r => handleFailure sch s cur (rawOf inp) r

def runTurns (sch : FormSchema) (s : Session) (inps : List TurnInput) : Session :=
  List.foldl (processTurn sch) s inps

def reaches (sch : FormSchema) (inps : List TurnInput) : Session :=
  runTurns sch (create sch) inps

/-- Modelled from the spec: section 4.6, a document value is either a filled
resolved value, the explicit not-selected marker of a resolved group
sibling, or absent (skipped field). -/
inductive DocValue
  | filled (v : String)
  | notSelected
  | missing
deriving DecidableEq, Repr

structure FilledForm where
  formId : String
  title : String
  values : List (String × DocValue)
deriving DecidableEq, Repr

def docValueOf : AnswerState → DocValue
  | .answered v => .filled v
  | .notSelected => .notSelected
  | .unanswered => .missing
  | .skipped => .missing

def DocValue.isEmptyVal : DocValue → Bool
  | .filled v => v == ""
  | .notSelected => false
  | .missing => true

/-- Modelled from the spec: the Completion Assembler of section 4.6, only
callable on a complete session, mirroring the schema with every field's
resolved value (no assembler exists in the repository sources). -/
def assemble (sch : FormSchema) (s : Session) : Option FilledForm :=
  if s.status = .complete then
    some
      { formId := sch.id
        title := sch.title
        values := sch.fields.map (fun f => (f.id, docValueOf (getAnswer s f.id))) }
  else none

/-- Modelled from the spec: a deterministic byte rendering of a filled form,
standing for the serialized output whose byte-identity section 8 states. -/
def renderForm (d : FilledForm) : String :=
  d.values.foldl
    (fun acc p =>
      acc ++ p.1 ++ "=" ++
        (match p.2 with
         | .filled v => v
         | .notSelected => "(not selected)"
         | .missing => "") ++ ";")
    (d.formId ++ "|" ++ d.title ++ "|")

def sameSelectOne (f g : SField) : Prop :=
  ∃ k, f.group = some ⟨k, .selectOne⟩ ∧ g.group = some ⟨k, .selectOne⟩

/-- Reachability invariant of orchestrator-driven sessions over a schema
with unique field ids. -/
structure Inv (sch : FormSchema) (s : Session) : Prop where
  keysA : s.answers.map Prod.fst = sch.fields.map (fun f => f.id)
  keysR : s.retries.map Prod.fst = sch.fields.map (fun f => f.id)
  ansNE : ∀ id v, getAnswer s id = .answered v → v ≠ ""
  reqNotSkipped : ∀ f, f ∈ sch.fields → f.required = true → getAnswer s f.id ≠ .skipped
  completeDone : s.status = .complete → allRequiredDone sch s = true
  unansweredFree : ∀ f, f ∈ sch.fields → getAnswer s f.id = .unanswered →
    groupBlocked sch s f = false
  atMostOne : ∀ f g, f ∈ sch.fields → g ∈ sch.fields → sameSelectOne f g →
    answeredNonEmpty s f.id = true → answeredNonEmpty s g.id = true → f.id = g.id

/-! ### Concrete schemas and runs for the spec scenarios -/

def nameField : SField :=
  { id := "name", label := "Full Name", ftype := .text, options := []
    required := true, group := none
    accessibilityHint := "Enter your full legal name", tabOrder := 1 }

def dobField : SField :=
  { id := "dob", label := "Date of Birth", ftype := .date, options := []
    required := true, group := none
    accessibilityHint := "Enter date in MM/DD/YYYY format", tabOrder := 2 }

def medicalSchema : FormSchema :=
  { id := "form_001", title := "Medical Intake Form", fields := [nameField, dobField] }

def genderField : SField :=
  { id := "gender", label := "Gender", ftype := .singleSelect
    options := ["Male", "Female", "Other"], required := false, group := none
    accessibilityHint := "Select one", tabOrder := 1 }

def genderSchema : FormSchema :=
  { id := "form_g", title := "Gender Form", fields := [genderField] }

def raceAsian : SField :=
  { id := "race_asian", label := "Asian", ftype := .text, options := []
    required := false, group := some ⟨"race", .selectOne⟩
    accessibilityHint := "Select one Race option", tabOrder := 1 }

def raceBlack : SField :=
  { id := "race_black", label := "Black or African American", ftype := .text
    options := [], required := false, group := some ⟨"race", .selectOne⟩
    accessibilityHint := "Select one Race option", tabOrder := 2 }

def raceSchema : FormSchema :=
  { id := "form_r", title := "Race Form", fields := [raceAsian, raceBlack] }

def scenarioA : List TurnInput := [.utter "Youdahe Asfaw", .utter "04/29/2006"]

def sessionA : Session := reaches medicalSchema scenarioA

def sessionA' : Session := { sessionA with history := [], cursor := none, retries := [] }

def sessionB1 : Session := reaches genderSchema [.utter "banana"]

def sessionB2 : Session := reaches genderSchema [.utter "banana", .utter "Male"]

def sessionR1 : Session := reaches raceSchema [.utter "yes"]

def medicalRaw : RawSchema :=
  { id := "form_001", title := "Medical Intake Form"
    fields :=
      [ { id := "name", label := "Full Name", ftype := .text, options := []
          required := true, accessibilityHint := "Enter your full legal name"
          tabOrder := 1 }
      , { id := "dob", label := "Date of Birth", ftype := .date, options := []
          required := true, accessibilityHint := "Enter date in MM/DD/YYYY format"
          tabOrder := 2 } ]
    groups := [] }

/-! ## Lemmas: association-list bookkeeping -/

theorem lookup_map_keyed {β : Type} (g : String → β → β) (id : String) :
    ∀ l : List (String × β),
      List.lookup id (l.map (fun p => (p.1, g p.1 p.2))) = (List.lookup id l).map (g id) := by
  intro l
  induction l with
  | nil => rfl
  | cons p t ih =>
    obtain ⟨k, v⟩ := p
    simp only [List.map_cons, List.lookup]
    cases h : id == k with
    | true => simp [eq_of_beq h]
    | false => simpa using ih

theorem keys_map_keyed {β : Type} (g : String → β → β) (l : List (String × β)) :
    (l.map (fun p => (p.1, g p.1 p.2))).map Prod.fst = l.map Prod.fst := by
  induction l with
  | nil => rfl
  | cons p t ih => simp [ih]

theorem lookup_isSome_of_mem {β : Type} {l : List (String × β)} {id : String}
    (h : id ∈ l.map Prod.fst) : (List.lookup id l).isSome = true := by
  induction l with
  | nil => simp at h
  | cons p t ih =>
    obtain ⟨k, v⟩ := p
    simp only [List.lookup]
    cases hk : id == k with
    | true => rfl
    | false =>
      apply ih
      simp only [List.map_cons, List.mem_cons] at h
      rcases h with h | h
      · exact absurd h (by simpa using hk)
      · exact h

theorem lookup_map_const {β : Type} (c : β) (id : String) :
    ∀ l : List SField,
      List.lookup id (l.map (fun f => (f.id, c))) = none ∨
      List.lookup id (l.map (fun f => (f.id, c))) = some c := by
  intro l
  induction l with
  | nil => exact Or.inl rfl
  | cons f t ih =>
    simp only [List.map_cons, List.lookup]
    cases id == f.id
    · exact ih
    · exact Or.inr rfl

theorem getAnswer_create (sch : FormSchema) (id : String) :
    getAnswer (create sch) id = .unanswered := by
  unfold getAnswer create
  rcases lookup_map_const AnswerState.unanswered id sch.fields with h | h <;> simp [h]

theorem getRetry_create (sch : FormSchema) (id : String) :
    getRetry (create sch) id = 0 := by
  unfold getRetry create
  rcases lookup_map_const 0 id sch.fields with h | h <;> simp [h]

theorem answeredNonEmpty_create (sch : FormSchema) (id : String) :
    answeredNonEmpty (create sch) id = false := by
  unfold answeredNonEmpty
  rw [getAnswer_create]

theorem getAnswer_setAnswers (s : Session) (g : String → AnswerState → AnswerState)
    (id : String) :
    getAnswer (setAnswers s g) id =
      match s.answers.lookup id with
      | some a => g id a
      | none => .unanswered := by
  show (List.lookup id (s.answers.map (fun p => (p.1, g p.1 p.2)))).getD .unanswered = _
  rw [lookup_map_keyed g id s.answers]
  cases s.answers.lookup id <;> rfl

theorem getRetry_bump_self (s : Session) (id : String)
    (h : (s.retries.lookup id).isSome = true) :
    getRetry (bumpRetry s id) id = getRetry s id + 1 := by
  show (List.lookup id (s.retries.map
      (fun p => (p.1, if p.1 == id then p.2 + 1 else p.2)))).getD 0 = _
  rw [lookup_map_keyed (fun k v => if k == id then v + 1 else v) id s.retries]
  cases hl : s.retries.lookup id with
  | none => rw [hl] at h; cases h
  | some n => simp [getRetry, hl]

/-! ## Lemmas: congruence in the answers component -/

theorem getAnswer_congr {s s' : Session} (h : s.answers = s'.answers) (id : String) :
    getAnswer s id = getAnswer s' id := by
  unfold getAnswer; rw [h]

theorem answeredNonEmpty_congr {s s' : Session} (h : s.answers = s'.answers) (id : String) :
    answeredNonEmpty s id = answeredNonEmpty s' id := by
  unfold answeredNonEmpty; rw [getAnswer_congr h]

theorem groupResolved_congr_ptwise {sch : FormSchema} {s s' : Session}
    (h : ∀ id, answeredNonEmpty s id = answeredNonEmpty s' id) (k : String) :
    groupResolved sch s k = groupResolved sch s' k := by
  unfold groupResolved
  have hf : (fun x : SField => inSelectOneGroup x k && answeredNonEmpty s x.id) =
      (fun x : SField => inSelectOneGroup x k && answeredNonEmpty s' x.id) :=
    funext (fun x => by rw [h])
  rw [hf]

theorem groupBlocked_congr_ptwise {sch : FormSchema} {s s' : Session}
    (h : ∀ id, answeredNonEmpty s id = answeredNonEmpty s' id) (f : SField) :
    groupBlocked sch s f = groupBlocked sch s' f := by
  unfold groupBlocked
  cases f.group with
  | none => rfl
  | some g => exact groupResolved_congr_ptwise h g.key

theorem askable_congr {sch : FormSchema} {s s' : Session} (h : s.answers = s'.answers)
    (f : SField) : askable sch s f = askable sch s' f := by
  unfold askable
  rw [getAnswer_congr h, groupBlocked_congr_ptwise (fun id => answeredNonEmpty_congr h id)]

theorem currentField_congr {sch : FormSchema} {s s' : Session}
    (h : s.answers = s'.answers) : currentField sch s = currentField sch s' := by
  unfold currentField
  have hf : askable sch s = askable sch s' := funext (fun f => askable_congr h f)
  rw [hf]

theorem allRequiredDone_congr {sch : FormSchema} {s s' : Session}
    (h : s.answers = s'.answers) : allRequiredDone sch s = allRequiredDone sch s' := by
  unfold allRequiredDone
  have hf : (fun f : SField =>
      !f.required ||
        (match getAnswer s f.id with
         | .answered _ => true
         | .notSelected => true
         | _ => false)) =
      (fun f : SField =>
        !f.required ||
          (match getAnswer s' f.id with
           | .answered _ => true
           | .notSelected => true
           | _ => false)) :=
    funext (fun f => by rw [getAnswer_congr h])
  rw [hf]

/-! ## Lemmas: field selection -/

theorem pickMin_none : ∀ {l : List SField}, pickMin l = none → l = [] := by
  intro l h
  cases l with
  | nil => rfl
  | cons a t =>
    rw [pickMin] at h
    cases hp : pickMin t with
    | none => simp only [hp] at h; cases h
    | some g =>
      simp only [hp] at h
      by_cases hle : a.tabOrder ≤ g.tabOrder
      · rw [if_pos hle] at h; cases h
      · rw [if_neg hle] at h; cases h

theorem pickMin_mem : ∀ {l : List SField} {f : SField}, pickMin l = some f → f ∈ l := by
  intro l
  induction l with
  | nil => intro f h; cases h
  | cons a t ih =>
    intro f h
    rw [pickMin] at h
    cases hp : pickMin t with
    | none =>
      simp only [hp, Option.some.injEq] at h
      rw [← h]
      exact List.mem_cons_self a t
    | some g =>
      simp only [hp] at h
      by_cases hle : a.tabOrder ≤ g.tabOrder
      · rw [if_pos hle, Option.some.injEq] at h
        rw [← h]; exact List.mem_cons_self a t
      · rw [if_neg hle, Option.some.injEq] at h
        rw [← h]; exact List.mem_cons_of_mem a (ih hp)

theorem pickMin_le : ∀ {l : List SField} {f : SField}, pickMin l = some f →
    ∀ g ∈ l, f.tabOrder ≤ g.tabOrder := by
  intro l
  induction l with
  | nil => intro f _ g hg; cases hg
  | cons a t ih =>
    intro f h g hg
    rw [pickMin] at h
    cases hp : pickMin t with
    | none =>
      simp only [hp, Option.some.injEq] at h
      rcases List.mem_cons.mp hg with hg | hg
      · rw [← h, hg]
      · rw [pickMin_none hp] at hg; cases hg
    | some m =>
      simp only [hp] at h
      by_cases hle : a.tabOrder ≤ m.tabOrder
      · rw [if_pos hle, Option.some.injEq] at h
        rcases List.mem_cons.mp hg with hg | hg
        · rw [← h, hg]
        · rw [← h]; exact le_trans hle (ih hp g hg)
      · rw [if_neg hle, Option.some.injEq] at h
        rcases List.mem_cons.mp hg with hg | hg
        · rw [← h, hg]; exact le_of_not_le hle
        · rw [← h]; exact ih hp g hg

theorem currentField_mem {sch : FormSchema} {s : Session} {f : SField}
    (h : currentField sch s = some f) : f ∈ sch.fields ∧ askable sch s f = true := by
  have := pickMin_mem h
  exact ⟨(List.mem_filter.mp this).1, (List.mem_filter.mp this).2⟩

theorem currentField_le {sch : FormSchema} {s : Session} {f : SField}
    (h : currentField sch s = some f) :
    ∀ g ∈ sch.fields, askable sch s g = true → f.tabOrder ≤ g.tabOrder := by
  intro g hg hask
  exact pickMin_le h g (List.mem_filter.mpr ⟨hg, hask⟩)

theorem askable_unanswered {sch : FormSchema} {s : Session} {f : SField}
    (h : askable sch s f = true) : getAnswer s f.id = .unanswered := by
  unfold askable at h
  rcases Bool.and_eq_true_iff.mp h with ⟨h1, _⟩
  exact eq_of_beq h1

theorem askable_not_blocked {sch : FormSchema} {s : Session} {f : SField}
    (h : askable sch s f = true) : groupBlocked sch s f = false := by
  unfold askable at h
  rcases Bool.and_eq_true_iff.mp h with ⟨_, h2⟩
  simpa using h2

/-! ## Lemmas: projections of the session transformers -/

theorem setAnswers_retries (s : Session) (g : String → AnswerState → AnswerState) :
    (setAnswers s g).retries = s.retries := rfl

theorem setAnswers_status (s : Session) (g : String → AnswerState → AnswerState) :
    (setAnswers s g).status = s.status := rfl

theorem bumpRetry_answers (s : Session) (id : String) :
    (bumpRetry s id).answers = s.answers := rfl

theorem bumpRetry_keys (s : Session) (id : String) :
    (bumpRetry s id).retries.map Prod.fst = s.retries.map Prod.fst :=
  keys_map_keyed (fun k v => if k == id then v + 1 else v) s.retries

theorem setAnswers_keys (s : Session) (g : String → AnswerState → AnswerState) :
    (setAnswers s g).answers.map Prod.fst = s.answers.map Prod.fst :=
  keys_map_keyed g s.answers

theorem failRecord_answers (s : Session) (cur : SField) (raw : String) (r : RejectReason) :
    (failRecord s cur raw r).answers = s.answers := rfl

theorem failRecord_status (s : Session) (cur : SField) (raw : String) (r : RejectReason) :
    (failRecord s cur raw r).status = s.status := rfl

theorem failRecord_retries (s : Session) (cur : SField) (raw : String) (r : RejectReason) :
    (failRecord s cur raw r).retries = (bumpRetry s cur.id).retries := rfl

theorem acceptRecord_answers (sch : FormSchema) (s : Session) (cur : SField)
    (raw v : String) :
    (acceptRecord sch s cur raw v).answers = (setAnswers s (acceptUpdate sch cur v)).answers :=
  rfl

theorem acceptRecord_retries (sch : FormSchema) (s : Session) (cur : SField)
    (raw v : String) : (acceptRecord sch s cur raw v).retries = s.retries := rfl

theorem acceptRecord_status (sch : FormSchema) (s : Session) (cur : SField)
    (raw v : String) : (acceptRecord sch s cur raw v).status = s.status := rfl

theorem advance_answers (sch : FormSchema) (s : Session) :
    (advance sch s).answers = s.answers := by
  unfold advance
  split
  · rfl
  · split <;> rfl

theorem advance_retries (sch : FormSchema) (s : Session) :
    (advance sch s).retries = s.retries := by
  unfold advance
  split
  · rfl
  · split <;> rfl

theorem advance_status_complete {sch : FormSchema} {s : Session}
    (h : (advance sch s).status = .complete) : allRequiredDone sch s = true := by
  unfold advance at h
  cases hcf : currentField sch s with
  | some f => simp only [hcf] at h; cases h
  | none =>
    simp only [hcf] at h
    by_cases hr : allRequiredDone sch s = true
    · exact hr
    · rw [if_neg hr] at h; cases h

theorem advance_status_not_failed {sch : FormSchema} {s : Session}
    (h : allRequiredDone sch s = true) : (advance sch s).status ≠ .failed := by
  unfold advance
  cases hcf : currentField sch s with
  | some f => intro hc; cases hc
  | none => rw [if_pos h]; intro hc; cases hc

/-! ## Lemmas: strings, the extractor and the validator -/

theorem lowerStr_eq_empty {s : String} (h : lowerStr s = "") : s = "" := by
  cases s with
  | mk data =>
    have hd : data.map Char.toLower = [] := congrArg String.data h
    have h2 : data = [] := List.map_eq_nil_iff.mp hd
    rw [h2]

theorem parseDate_ne_empty {s d : String} (h : parseDate s = some d) : d ≠ "" := by
  unfold parseDate at h
  split at h
  · split at h
    · split at h
      · injection h with h
        intro hc
        rw [← h] at hc
        have := congrArg String.data hc
        simp [pad4] at this
      · cases h
    · cases h
  · cases h

theorem extract_some_ne {inp : TurnInput} {cand : String} (h : extract inp = some cand) :
    cand ≠ "" := by
  cases inp with
  | timeout => cases h
  | utter u =>
    have h' : (if trimStr u = "" then none else some (trimStr u)) = some cand := h
    by_cases ht : trimStr u = ""
    · rw [if_pos ht] at h'; cases h'
    · rw [if_neg ht] at h'; injection h' with h'; rw [← h']; exact ht

theorem matchOption_accepted {opts : List String} {cand v : String}
    (h : matchOption opts cand = .accepted v) :
    v ∈ opts ∧ lowerStr v = lowerStr cand := by
  unfold matchOption at h
  cases hf : opts.find? (fun o => lowerStr o == lowerStr cand) with
  | none => rw [hf] at h; cases h
  | some o =>
    have hp0 := List.find?_some hf
    have hp : (lowerStr o == lowerStr cand) = true := hp0
    have hmem : o ∈ opts := List.mem_of_find?_eq_some hf
    rw [hf] at h
    injection h with h
    rw [← h]
    exact ⟨hmem, eq_of_beq hp⟩

theorem validate_accepted_no_conflict {sch : FormSchema} {s : Session} {f : SField}
    {cand v : String} (h : validate sch s f cand = .accepted v) :
    conflictsGroup sch s f cand = false := by
  cases hb : conflictsGroup sch s f cand
  · rfl
  · rw [validate, hb] at h; simp at h

theorem validate_accepted_ne {sch : FormSchema} {s : Session} {f : SField}
    {cand v : String} (h : validate sch s f cand = .accepted v) (hc : cand ≠ "") :
    v ≠ "" := by
  have hcf := validate_accepted_no_conflict h
  rw [validate, hcf] at h
  simp only [Bool.false_eq_true, if_false] at h
  cases hft : f.ftype
  all_goals rw [hft] at h
  · by_cases he : cand = ""
    · exact absurd he hc
    · rw [if_neg he] at h; injection h with h; rw [← h]; exact hc
  · cases hp : parseDate cand with
    | none => rw [hp] at h; cases h
    | some d => rw [hp] at h; injection h with h; rw [← h]; exact parseDate_ne_empty hp
  · intro hv
    rw [hv] at h
    have := (matchOption_accepted h).2
    exact hc (lowerStr_eq_empty this.symm)
  · intro hv
    rw [hv] at h
    have := (matchOption_accepted h).2
    exact hc (lowerStr_eq_empty this.symm)

theorem no_conflict_no_sibling {sch : FormSchema} {s : Session} {f : SField} {cand : String}
    (hc : conflictsGroup sch s f cand = false) (hcand : cand ≠ "") {g : GroupSpec}
    (hg : f.group = some g) :
    ∀ h ∈ sch.fields, h.id ≠ f.id → inSelectOneGroup h g.key = true →
      answeredNonEmpty s h.id = false := by
  intro x hmem hne hgrp
  unfold conflictsGroup at hc
  rw [hg] at hc
  rcases Bool.and_eq_false_iff.mp hc with h1 | h2
  · exfalso
    apply hcand
    have : (cand == "") = true := by
      cases hcb : cand == ""
      · rw [hcb] at h1; cases h1
      · rfl
    exact eq_of_beq this
  · cases haNE : answeredNonEmpty s x.id
    · rfl
    · exfalso
      have hall := List.any_eq_false.mp h2 x hmem
      apply hall
      have hne' : (x.id == f.id) = false := beq_eq_false_iff_ne.mpr hne
      rw [hne', hgrp, haNE]
      rfl

/-! ## Lemmas: schema and invariant infrastructure -/

theorem id_inj {sch : FormSchema} (hn : (sch.fields.map (fun f => f.id)).Nodup)
    {f g : SField} (hf : f ∈ sch.fields) (hg : g ∈ sch.fields) (h : f.id = g.id) :
    f = g :=
  List.inj_on_of_nodup_map hn hf hg h

theorem lookup_answers_some {sch : FormSchema} {s : Session}
    (hkeys : s.answers.map Prod.fst = sch.fields.map (fun f => f.id))
    {f : SField} (hf : f ∈ sch.fields) :
    s.answers.lookup f.id = some (getAnswer s f.id) := by
  have hmemk : f.id ∈ s.answers.map Prod.fst := by
    rw [hkeys]; exact List.mem_map_of_mem (fun x => x.id) hf
  have hs := lookup_isSome_of_mem hmemk
  cases hl : s.answers.lookup f.id with
  | none => rw [hl] at hs; cases hs
  | some a => unfold getAnswer; rw [hl]; rfl

theorem lookup_retries_some {sch : FormSchema} {s : Session}
    (hkeys : s.retries.map Prod.fst = sch.fields.map (fun f => f.id))
    {f : SField} (hf : f ∈ sch.fields) :
    (s.retries.lookup f.id).isSome = true := by
  apply lookup_isSome_of_mem
  rw [hkeys]; exact List.mem_map_of_mem (fun x => x.id) hf

theorem inSelectOneGroup_iff {f : SField} {k : String} :
    inSelectOneGroup f k = true ↔ f.group = some ⟨k, .selectOne⟩ := by
  unfold inSelectOneGroup
  cases hg : f.group with
  | none => simp
  | some g =>
    cases g with
    | mk key rule =>
      cases rule
      simp [beq_iff_eq]

theorem idInSelectOneGroup_of_mem {sch : FormSchema} {g : SField} (hg : g ∈ sch.fields)
    {k : String} (hgrp : inSelectOneGroup g k = true) :
    idInSelectOneGroup sch g.id k = true := by
  unfold idInSelectOneGroup
  rw [List.any_eq_true]
  exact ⟨g, hg, by simp [hgrp]⟩

theorem idInSelectOneGroup_elim {sch : FormSchema} {id k : String}
    (h : idInSelectOneGroup sch id k = true) :
    ∃ x ∈ sch.fields, x.id = id ∧ inSelectOneGroup x k = true := by
  unfold idInSelectOneGroup at h
  rw [List.any_eq_true] at h
  obtain ⟨x, hx, hp⟩ := h
  exact ⟨x, hx, eq_of_beq (Bool.and_eq_true_iff.mp hp).1, (Bool.and_eq_true_iff.mp hp).2⟩

theorem groupResolved_elim {sch : FormSchema} {s : Session} {k : String}
    (h : groupResolved sch s k = true) :
    ∃ x ∈ sch.fields, inSelectOneGroup x k = true ∧ answeredNonEmpty s x.id = true := by
  unfold groupResolved at h
  rw [List.any_eq_true] at h
  obtain ⟨x, hx, hp⟩ := h
  exact ⟨x, hx, (Bool.and_eq_true_iff.mp hp).1, (Bool.and_eq_true_iff.mp hp).2⟩

theorem groupResolved_intro {sch : FormSchema} {s : Session} {k : String} {x : SField}
    (hx : x ∈ sch.fields) (h1 : inSelectOneGroup x k = true)
    (h2 : answeredNonEmpty s x.id = true) : groupResolved sch s k = true := by
  unfold groupResolved
  rw [List.any_eq_true]
  exact ⟨x, hx, by rw [h1, h2]; rfl⟩

theorem answeredNonEmpty_true {s : Session} {id : String}
    (h : answeredNonEmpty s id = true) :
    ∃ v, getAnswer s id = .answered v ∧ v ≠ "" := by
  unfold answeredNonEmpty at h
  cases ha : getAnswer s id with
  | answered v =>
    rw [ha] at h
    refine ⟨v, rfl, ?_⟩
    intro hc
    rw [hc] at h
    simp at h
  | unanswered => rw [ha] at h; cases h
  | notSelected => rw [ha] at h; cases h
  | skipped => rw [ha] at h; cases h

theorem answeredNonEmpty_intro {s : Session} {id : String} {v : String}
    (h : getAnswer s id = .answered v) (hv : v ≠ "") :
    answeredNonEmpty s id = true := by
  unfold answeredNonEmpty
  rw [h]
  simp [hv]

theorem Inv.transfer {sch : FormSchema} {s s' : Session} (H : Inv sch s)
    (ha : s'.answers = s.answers)
    (hrk : s'.retries.map Prod.fst = s.retries.map Prod.fst)
    (hcd : s'.status = .complete → allRequiredDone sch s = true) : Inv sch s' := by
  have hga : ∀ id, getAnswer s' id = getAnswer s id := fun id => getAnswer_congr ha id
  have hne : ∀ id, answeredNonEmpty s' id = answeredNonEmpty s id :=
    fun id => answeredNonEmpty_congr ha id
  constructor
  · rw [ha]; exact H.keysA
  · rw [hrk]; exact H.keysR
  · intro id v h; exact H.ansNE id v ((hga id).symm.trans h)
  · intro f hf hr; rw [hga]; exact H.reqNotSkipped f hf hr
  · intro hc; rw [allRequiredDone_congr ha]; exact hcd hc
  · intro f hf hu
    rw [groupBlocked_congr_ptwise hne]
    exact H.unansweredFree f hf ((hga f.id).symm.trans hu)
  · intro f g hf hg hsame h1 h2
    exact H.atMostOne f g hf hg hsame ((hne f.id).symm.trans h1) ((hne g.id).symm.trans h2)

theorem getAnswer_setAnswers_some {s : Session} {g : String → AnswerState → AnswerState}
    {id : String} {a : AnswerState} (hl : s.answers.lookup id = some a) :
    getAnswer (setAnswers s g) id = g id a := by
  rw [getAnswer_setAnswers, hl]

theorem getAnswer_setAnswers_none {s : Session} {g : String → AnswerState → AnswerState}
    {id : String} (hl : s.answers.lookup id = none) :
    getAnswer (setAnswers s g) id = .unanswered := by
  rw [getAnswer_setAnswers, hl]

theorem getAnswer_lookup_none {s : Session} {id : String}
    (hl : s.answers.lookup id = none) : getAnswer s id = .unanswered := by
  unfold getAnswer
  rw [hl]
  rfl

theorem getAnswer_skip_self {s : Session} {cur : SField} {a : AnswerState}
    (raw : String) (r : RejectReason) (hl : s.answers.lookup cur.id = some a) :
    getAnswer
      (setAnswers (failRecord s cur raw r) (fun j b => if j == cur.id then .skipped else b))
      cur.id = .skipped := by
  have hl' : (failRecord s cur raw r).answers.lookup cur.id = some a := hl
  rw [getAnswer_setAnswers_some hl']
  simp

theorem getAnswer_skip_other {s : Session} {cur : SField} {id : String}
    (raw : String) (r : RejectReason) (hne : id ≠ cur.id) :
    getAnswer
      (setAnswers (failRecord s cur raw r) (fun j b => if j == cur.id then .skipped else b))
      id = getAnswer s id := by
  cases hl : s.answers.lookup id with
  | none =>
    have hl' : (failRecord s cur raw r).answers.lookup id = none := hl
    rw [getAnswer_setAnswers_none hl', getAnswer_lookup_none hl]
  | some a =>
    have hl' : (failRecord s cur raw r).answers.lookup id = some a := hl
    rw [getAnswer_setAnswers_some hl']
    have hbe : (id == cur.id) = false := beq_eq_false_iff_ne.mpr hne
    rw [hbe]
    unfold getAnswer
    rw [hl]
    rfl

theorem getAnswer_accept_self {sch : FormSchema} {s : Session} {cur : SField} {v : String}
    {a : AnswerState} (hl : s.answers.lookup cur.id = some a) :
    getAnswer (setAnswers s (acceptUpdate sch cur v)) cur.id = .answered v := by
  rw [getAnswer_setAnswers_some hl]
  unfold acceptUpdate
  simp

theorem getAnswer_accept_at {sch : FormSchema} {s : Session} {cur : SField} {v : String}
    {id : String} {a : AnswerState} (hl : s.answers.lookup id = some a) :
    getAnswer (setAnswers s (acceptUpdate sch cur v)) id =
      acceptUpdate sch cur v id (getAnswer s id) := by
  rw [getAnswer_setAnswers_some hl]
  unfold getAnswer
  rw [hl]
  rfl

theorem getAnswer_accept_sibling {sch : FormSchema} {s : Session} {cur : SField}
    {v : String} {id : String} {a : AnswerState} {g : GroupSpec}
    (hl : s.answers.lookup id = some a) (hne : id ≠ cur.id) (hg : cur.group = some g)
    (hin : idInSelectOneGroup sch id g.key = true) :
    getAnswer (setAnswers s (acceptUpdate sch cur v)) id = .notSelected := by
  rw [getAnswer_setAnswers_some hl]
  unfold acceptUpdate
  have hbe : (id == cur.id) = false := beq_eq_false_iff_ne.mpr hne
  rw [hbe]
  simp only [Bool.false_eq_true, if_false, hg, hin, if_true]

theorem inv_skip {sch : FormSchema} (hn : (sch.fields.map (fun f => f.id)).Nodup)
    {s : Session} (H : Inv sch s) {cur : SField} (hmem : cur ∈ sch.fields)
    (hunans : getAnswer s cur.id = .unanswered) (hreq : cur.required = false)
    (hst : s.status ≠ .complete) (raw : String) (r : RejectReason) :
    Inv sch (setAnswers (failRecord s cur raw r)
      (fun j b => if j == cur.id then .skipped else b)) := by
  have hlcur : s.answers.lookup cur.id = some (getAnswer s cur.id) :=
    lookup_answers_some H.keysA hmem
  have hself := getAnswer_skip_self raw r hlcur
  have hptw : ∀ id,
      answeredNonEmpty
        (setAnswers (failRecord s cur raw r)
          (fun j b => if j == cur.id then .skipped else b)) id =
      answeredNonEmpty s id := by
    intro id
    by_cases hid : id = cur.id
    · subst hid
      unfold answeredNonEmpty
      rw [hself, hunans]
    · unfold answeredNonEmpty
      rw [getAnswer_skip_other raw r hid]
  constructor
  · exact (keys_map_keyed (fun j b => if j == cur.id then AnswerState.skipped else b)
      s.answers).trans H.keysA
  · exact (bumpRetry_keys s cur.id).trans H.keysR
  · intro id v h
    by_cases hid : id = cur.id
    · subst hid; rw [hself] at h; cases h
    · rw [getAnswer_skip_other raw r hid] at h
      exact H.ansNE id v h
  · intro f hf hr
    by_cases hid : f.id = cur.id
    · exfalso
      have : f = cur := id_inj hn hf hmem hid
      rw [this, hreq] at hr
      cases hr
    · rw [getAnswer_skip_other raw r hid]
      exact H.reqNotSkipped f hf hr
  · intro hc
    exact absurd hc hst
  · intro f hf hu
    rw [groupBlocked_congr_ptwise hptw]
    apply H.unansweredFree f hf
    by_cases hid : f.id = cur.id
    · rw [hid] at hu ⊢; rw [hself] at hu; cases hu
    · rw [getAnswer_skip_other raw r hid] at hu; exact hu
  · intro f g hf hg hsame h1 h2
    exact H.atMostOne f g hf hg hsame
      ((hptw f.id).symm.trans h1) ((hptw g.id).symm.trans h2)

theorem inv_accept {sch : FormSchema} (hn : (sch.fields.map (fun f => f.id)).Nodup)
    {s : Session} (H : Inv sch s) {cur : SField} (hmem : cur ∈ sch.fields)
    (_hunans : getAnswer s cur.id = .unanswered) {cand v : String} (hcand : cand ≠ "")
    (hv : validate sch s cur cand = .accepted v) (hst : s.status ≠ .complete) :
    Inv sch (setAnswers s (acceptUpdate sch cur v)) := by
  have hvne : v ≠ "" := validate_accepted_ne hv hcand
  have hlcur : s.answers.lookup cur.id = some (getAnswer s cur.id) :=
    lookup_answers_some H.keysA hmem
  have hself : getAnswer (setAnswers s (acceptUpdate sch cur v)) cur.id = .answered v :=
    getAnswer_accept_self hlcur
  have hat : ∀ f : SField, f ∈ sch.fields →
      getAnswer (setAnswers s (acceptUpdate sch cur v)) f.id =
        acceptUpdate sch cur v f.id (getAnswer s f.id) :=
    fun f hf => getAnswer_accept_at (lookup_answers_some H.keysA hf)
  have haux : ∀ x : SField, x ∈ sch.fields →
      answeredNonEmpty (setAnswers s (acceptUpdate sch cur v)) x.id = true →
      x.id = cur.id ∨
        (answeredNonEmpty s x.id = true ∧
          ∀ gsp, cur.group = some gsp → idInSelectOneGroup sch x.id gsp.key = false) := by
    intro x hx hane
    obtain ⟨w, hw, hwne⟩ := answeredNonEmpty_true hane
    rw [hat x hx] at hw
    unfold acceptUpdate at hw
    cases hbe : x.id == cur.id with
    | true => exact Or.inl (eq_of_beq hbe)
    | false =>
      rw [hbe] at hw
      simp only [Bool.false_eq_true, if_false] at hw
      right
      cases hcg : cur.group with
      | none =>
        simp only [hcg] at hw
        refine ⟨answeredNonEmpty_intro hw hwne, ?_⟩
        intro gsp hg
        cases hg
      | some gsp =>
        simp only [hcg] at hw
        cases hin : idInSelectOneGroup sch x.id gsp.key with
        | true =>
          rw [hin] at hw
          simp only [if_true] at hw
          cases hw
        | false =>
          rw [hin] at hw
          simp only [Bool.false_eq_true, if_false] at hw
          refine ⟨answeredNonEmpty_intro hw hwne, ?_⟩
          intro gsp' hg'
          have hgg : gsp = gsp' := Option.some.inj hg'
          rw [← hgg]
          exact hin
  constructor
  · exact (keys_map_keyed (acceptUpdate sch cur v) s.answers).trans H.keysA
  · exact H.keysR
  · intro id w h
    cases hl : s.answers.lookup id with
    | none => rw [getAnswer_setAnswers_none hl] at h; cases h
    | some a =>
      rw [getAnswer_setAnswers_some hl] at h
      unfold acceptUpdate at h
      have hsa : getAnswer s id = a := by unfold getAnswer; rw [hl]; rfl
      cases hbe : id == cur.id with
      | true =>
        rw [hbe] at h
        simp only [if_true] at h
        injection h with h
        rw [← h]
        exact hvne
      | false =>
        rw [hbe] at h
        simp only [Bool.false_eq_true, if_false] at h
        cases hcg : cur.group with
        | none =>
          simp only [hcg] at h
          exact H.ansNE id w (hsa.trans h)
        | some gsp =>
          simp only [hcg] at h
          cases hin : idInSelectOneGroup sch id gsp.key with
          | true => rw [hin] at h; simp only [if_true] at h; cases h
          | false =>
            rw [hin] at h
            simp only [Bool.false_eq_true, if_false] at h
            exact H.ansNE id w (hsa.trans h)
  · intro f hf hr
    rw [hat f hf]
    unfold acceptUpdate
    cases hbe : f.id == cur.id with
    | true =>
      simp only [if_true]
      intro hc; cases hc
    | false =>
      simp only [Bool.false_eq_true, if_false]
      cases hcg : cur.group with
      | none =>
        exact H.reqNotSkipped f hf hr
      | some gsp =>
        show (if idInSelectOneGroup sch f.id gsp.key = true then AnswerState.notSelected
          else getAnswer s f.id) ≠ AnswerState.skipped
        by_cases hin : idInSelectOneGroup sch f.id gsp.key = true
        · rw [if_pos hin]; intro hc; cases hc
        · rw [if_neg hin]; exact H.reqNotSkipped f hf hr
  · intro hc
    exact absurd hc hst
  · intro f hf hu
    rw [hat f hf] at hu
    unfold acceptUpdate at hu
    cases hbe : f.id == cur.id with
    | true =>
      rw [hbe] at hu
      simp only [if_true] at hu
      cases hu
    | false =>
      rw [hbe] at hu
      simp only [Bool.false_eq_true, if_false] at hu
      cases hcg : cur.group with
      | none =>
        simp only [hcg] at hu
        cases hfg : f.group with
        | none => simp [groupBlocked, hfg]
        | some gf =>
          unfold groupBlocked
          simp only [hfg]
          cases hres : groupResolved sch (setAnswers s (acceptUpdate sch cur v)) gf.key with
          | false => rfl
          | true =>
            exfalso
            obtain ⟨x, hx, hxg, hxane⟩ := groupResolved_elim hres
            rcases haux x hx hxane with hxc | ⟨hxane', _⟩
            · have hxcur : x = cur := id_inj hn hx hmem hxc
              rw [inSelectOneGroup_iff] at hxg
              rw [hxcur, hcg] at hxg
              cases hxg
            · have hres_s : groupResolved sch s gf.key = true :=
                groupResolved_intro hx hxg hxane'
              have hblocked := H.unansweredFree f hf hu
              unfold groupBlocked at hblocked
              simp only [hfg] at hblocked
              rw [hres_s] at hblocked
              cases hblocked
      | some gsp =>
        simp only [hcg] at hu
        cases hin : idInSelectOneGroup sch f.id gsp.key with
        | true =>
          rw [hin] at hu
          simp only [if_true] at hu
          cases hu
        | false =>
          rw [hin] at hu
          simp only [Bool.false_eq_true, if_false] at hu
          cases hfg : f.group with
          | none => simp [groupBlocked, hfg]
          | some gf =>
            unfold groupBlocked
            simp only [hfg]
            cases hres : groupResolved sch (setAnswers s (acceptUpdate sch cur v)) gf.key with
            | false => rfl
            | true =>
              exfalso
              obtain ⟨x, hx, hxg, hxane⟩ := groupResolved_elim hres
              rcases haux x hx hxane with hxc | ⟨hxane', _⟩
              · have hxcur : x = cur := id_inj hn hx hmem hxc
                rw [inSelectOneGroup_iff] at hxg
                rw [hxcur, hcg] at hxg
                have hgg : gsp = ⟨gf.key, .selectOne⟩ := Option.some.inj hxg
                have hfin : inSelectOneGroup f gf.key = true := by
                  rw [inSelectOneGroup_iff, hfg]
                have hidin : idInSelectOneGroup sch f.id gf.key = true :=
                  idInSelectOneGroup_of_mem hf hfin
                have hkeq : gsp.key = gf.key := by rw [hgg]
                rw [hkeq, hidin] at hin
                cases hin
              · have hres_s : groupResolved sch s gf.key = true :=
                  groupResolved_intro hx hxg hxane'
                have hblocked := H.unansweredFree f hf hu
                unfold groupBlocked at hblocked
                simp only [hfg] at hblocked
                rw [hres_s] at hblocked
                cases hblocked
  · intro f g hf hg hsame h1 h2
    obtain ⟨k, hfk, hgk⟩ := hsame
    rcases haux f hf h1 with hfc | ⟨hfane, hfno⟩
    · rcases haux g hg h2 with hgc | ⟨hgane, hgno⟩
      · rw [hfc, hgc]
      · exfalso
        have hfcur : f = cur := id_inj hn hf hmem hfc
        have hcurg : cur.group = some ⟨k, .selectOne⟩ := by rw [← hfcur]; exact hfk
        have hgin : inSelectOneGroup g k = true := inSelectOneGroup_iff.mpr hgk
        have h3 : idInSelectOneGroup sch g.id k = false := hgno ⟨k, .selectOne⟩ hcurg
        rw [idInSelectOneGroup_of_mem hg hgin] at h3
        cases h3
    · rcases haux g hg h2 with hgc | ⟨hgane, hgno⟩
      · exfalso
        have hgcur : g = cur := id_inj hn hg hmem hgc
        have hcurg : cur.group = some ⟨k, .selectOne⟩ := by rw [← hgcur]; exact hgk
        have hfin : inSelectOneGroup f k = true := inSelectOneGroup_iff.mpr hfk
        have h3 : idInSelectOneGroup sch f.id k = false := hfno ⟨k, .selectOne⟩ hcurg
        rw [idInSelectOneGroup_of_mem hf hfin] at h3
        cases h3
      · exact H.atMostOne f g hf hg ⟨k, hfk, hgk⟩ hfane hgane

theorem inv_advance {sch : FormSchema} {s : Session} (H : Inv sch s) :
    Inv sch (advance sch s) :=
  H.transfer (advance_answers sch s) (by rw [advance_retries])
    (fun hc => advance_status_complete hc)

theorem inv_handleFailure {sch : FormSchema} (hn : (sch.fields.map (fun f => f.id)).Nodup)
    {s : Session} (H : Inv sch s) {cur : SField} (hmem : cur ∈ sch.fields)
    (hunans : getAnswer s cur.id = .unanswered) (hst : s.status ≠ .complete)
    (raw : String) (r : RejectReason) : Inv sch (handleFailure sch s cur raw r) := by
  unfold handleFailure
  by_cases h3 : 3 ≤ getRetry s cur.id + 1
  · rw [if_pos h3]
    by_cases hreq : cur.required = true
    · rw [if_pos hreq]
      refine H.transfer rfl ?_ ?_
      · exact bumpRetry_keys s cur.id
      · intro hc; cases hc
    · rw [if_neg hreq]
      have hreq' : cur.required = false := by
        cases hcr : cur.required
        · rfl
        · exact absurd hcr hreq
      exact inv_advance (inv_skip hn H hmem hunans hreq' hst raw r)
  · rw [if_neg h3]
    refine H.transfer rfl ?_ ?_
    · exact bumpRetry_keys s cur.id
    · intro hc; cases hc

theorem inv_turnBody {sch : FormSchema} (hn : (sch.fields.map (fun f => f.id)).Nodup)
    {s : Session} (H : Inv sch s) (inp : TurnInput) (hst : s.status ≠ .complete) :
    Inv sch
      (match currentField sch s with
       | none => advance sch s
       | some cur =>
         match extract inp with
         | none => handleFailure sch s cur (rawOf inp) .noMatch
         | some cand =>
           match validate sch s cur cand with
           | .accepted v => advance sch (acceptRecord sch s cur (rawOf inp) v)
           | .rejected r => handleFailure sch s cur (rawOf inp) r) := by
  cases hcf : currentField sch s with
  | none => exact inv_advance H
  | some cur =>
    have hmem := (currentField_mem hcf).1
    have hask := (currentField_mem hcf).2
    have hunans := askable_unanswered hask
    cases hex : extract inp with
    | none => exact inv_handleFailure hn H hmem hunans hst (rawOf inp) .noMatch
    | some cand =>
      show Inv sch
        (match validate sch s cur cand with
         | .accepted v => advance sch (acceptRecord sch s cur (rawOf inp) v)
         | .rejected r => handleFailure sch s cur (rawOf inp) r)
      cases hval : validate sch s cur cand with
      | rejected r => exact inv_handleFailure hn H hmem hunans hst (rawOf inp) r
      | accepted v =>
        have hIa : Inv sch (setAnswers s (acceptUpdate sch cur v)) :=
          inv_accept hn H hmem hunans (extract_some_ne hex) hval hst
        have hIr : Inv sch (acceptRecord sch s cur (rawOf inp) v) :=
          hIa.transfer rfl rfl (fun hc => absurd hc hst)
        exact inv_advance hIr

theorem inv_processTurn {sch : FormSchema} (hn : (sch.fields.map (fun f => f.id)).Nodup)
    {s : Session} (H : Inv sch s) (inp : TurnInput) :
    Inv sch (processTurn sch s inp) := by
  unfold processTurn
  cases hst : s.status with
  | complete => exact H
  | failed => exact H
  | inProgress =>
    exact inv_turnBody hn H inp (fun hc => by rw [hst] at hc; cases hc)
  | awaitingClarification =>
    exact inv_turnBody hn H inp (fun hc => by rw [hst] at hc; cases hc)

theorem inv_create (sch : FormSchema) : Inv sch (create sch) := by
  constructor
  · rw [create]
    simp only []
    rw [List.map_map]
    rfl
  · rw [create]
    simp only []
    rw [List.map_map]
    rfl
  · intro id v h; rw [getAnswer_create] at h; cases h
  · intro f hf _; rw [getAnswer_create]; intro hc; cases hc
  · intro hc; cases hc
  · intro f hf hu
    unfold groupBlocked
    cases hfg : f.group with
    | none => rfl
    | some g =>
      unfold groupResolved
      rw [List.any_eq_false]
      intro x hx
      simp [answeredNonEmpty_create]
  · intro f g hf hg hsame h1 h2
    rw [answeredNonEmpty_create] at h1
    cases h1

theorem inv_runTurns {sch : FormSchema} (hn : (sch.fields.map (fun f => f.id)).Nodup) :
    ∀ (inps : List TurnInput) {s : Session}, Inv sch s → Inv sch (runTurns sch s inps) := by
  intro inps
  induction inps with
  | nil => intro s H; exact H
  | cons i rest ih => intro s H; exact ih (inv_processTurn hn H i)

theorem inv_reaches {sch : FormSchema} (hn : (sch.fields.map (fun f => f.id)).Nodup)
    (inps : List TurnInput) : Inv sch (reaches sch inps) :=
  inv_runTurns hn inps (inv_create sch)

/-! ## Lemmas: monotonicity of answers along turns -/

theorem getAnswer_advance (sch : FormSchema) (s : Session) (id : String) :
    getAnswer (advance sch s) id = getAnswer s id :=
  getAnswer_congr (advance_answers sch s) id

theorem answeredNonEmpty_eq_of_getAnswer {s s' : Session} {id : String}
    (h : getAnswer s' id = getAnswer s id) :
    answeredNonEmpty s' id = answeredNonEmpty s id := by
  unfold answeredNonEmpty
  rw [h]

theorem handleFailure_getAnswer (sch : FormSchema) (s : Session) (cur : SField)
    (raw : String) (r : RejectReason) (id : String) :
    getAnswer (handleFailure sch s cur raw r) id = getAnswer s id ∨
    (getAnswer (handleFailure sch s cur raw r) id = .skipped ∧ id = cur.id) := by
  unfold handleFailure
  by_cases h3 : 3 ≤ getRetry s cur.id + 1
  · rw [if_pos h3]
    by_cases hreq : cur.required = true
    · rw [if_pos hreq]; left; rfl
    · rw [if_neg hreq]
      cases hl : s.answers.lookup id with
      | none =>
        left
        have hl' : (failRecord s cur raw r).answers.lookup id = none := hl
        rw [getAnswer_advance, getAnswer_setAnswers_none hl']
        exact (getAnswer_lookup_none hl).symm
      | some a =>
        by_cases hid : id = cur.id
        · right
          subst hid
          refine ⟨?_, rfl⟩
          rw [getAnswer_advance]
          exact getAnswer_skip_self raw r hl
        · left
          rw [getAnswer_advance]
          exact getAnswer_skip_other raw r hid
  · rw [if_neg h3]; left; rfl

theorem step_unanswered_mono {sch : FormSchema} {s : Session} {inp : TurnInput}
    {id : String} (h : getAnswer (processTurn sch s inp) id = .unanswered) :
    getAnswer s id = .unanswered := by
  unfold processTurn at h
  cases hst : s.status
  case complete => rw [hst] at h; exact h
  case failed => rw [hst] at h; exact h
  all_goals simp only [hst] at h
  all_goals {
    cases hcf : currentField sch s with
    | none =>
      simp only [hcf] at h
      rw [getAnswer_advance] at h
      exact h
    | some cur =>
      simp only [hcf] at h
      cases hex : extract inp with
      | none =>
        simp only [hex] at h
        rcases handleFailure_getAnswer sch s cur (rawOf inp) .noMatch id with
          heq | ⟨hsk, _⟩
        · rw [heq] at h; exact h
        · rw [hsk] at h; cases h
      | some cand =>
        simp only [hex] at h
        cases hval : validate sch s cur cand with
        | rejected r =>
          simp only [hval] at h
          rcases handleFailure_getAnswer sch s cur (rawOf inp) r id with
            heq | ⟨hsk, _⟩
          · rw [heq] at h; exact h
          · rw [hsk] at h; cases h
        | accepted v =>
          simp only [hval] at h
          rw [getAnswer_advance] at h
          have hacc : getAnswer (acceptRecord sch s cur (rawOf inp) v) id =
              getAnswer (setAnswers s (acceptUpdate sch cur v)) id := rfl
          rw [hacc] at h
          cases hl : s.answers.lookup id with
          | none => exact getAnswer_lookup_none hl
          | some a =>
            rw [getAnswer_setAnswers_some hl] at h
            unfold acceptUpdate at h
            have hsa : getAnswer s id = a := by unfold getAnswer; rw [hl]; rfl
            cases hbe : id == cur.id with
            | true => rw [hbe] at h; simp only [if_true] at h; cases h
            | false =>
              rw [hbe] at h
              simp only [Bool.false_eq_true, if_false] at h
              cases hcg : cur.group with
              | none => simp only [hcg] at h; exact hsa.trans h
              | some g =>
                simp only [hcg] at h
                by_cases hin : idInSelectOneGroup sch id g.key = true
                · rw [if_pos hin] at h; cases h
                · rw [if_neg hin] at h; exact hsa.trans h
  }

theorem step_answeredNE_mono {sch : FormSchema} {s : Session} {inp : TurnInput}
    {id : String} (h : answeredNonEmpty s id = true) :
    answeredNonEmpty (processTurn sch s inp) id = true := by
  obtain ⟨w, hw, hwne⟩ := answeredNonEmpty_true h
  unfold processTurn
  cases hst : s.status
  case complete => exact h
  case failed => exact h
  all_goals {
    cases hcf : currentField sch s with
    | none =>
      show answeredNonEmpty (advance sch s) id = true
      rw [answeredNonEmpty_eq_of_getAnswer (getAnswer_advance sch s id)]
      exact h
    | some cur =>
      have hunans : getAnswer s cur.id = .unanswered :=
        askable_unanswered (currentField_mem hcf).2
      have hidne : id ≠ cur.id := by
        intro hc
        rw [hc, hunans] at hw
        cases hw
      cases hex : extract inp with
      | none =>
        show answeredNonEmpty (handleFailure sch s cur (rawOf inp) .noMatch) id = true
        rcases handleFailure_getAnswer sch s cur (rawOf inp) .noMatch id with
          heq | ⟨_, hid⟩
        · rw [answeredNonEmpty_eq_of_getAnswer heq]; exact h
        · exact absurd hid hidne
      | some cand =>
        show answeredNonEmpty
          (match validate sch s cur cand with
           | .accepted v => advance sch (acceptRecord sch s cur (rawOf inp) v)
           | .rejected r => handleFailure sch s cur (rawOf inp) r) id = true
        cases hval : validate sch s cur cand with
        | rejected r =>
          show answeredNonEmpty (handleFailure sch s cur (rawOf inp) r) id = true
          rcases handleFailure_getAnswer sch s cur (rawOf inp) r id with
            heq | ⟨_, hid⟩
          · rw [answeredNonEmpty_eq_of_getAnswer heq]; exact h
          · exact absurd hid hidne
        | accepted v =>
          show answeredNonEmpty (advance sch (acceptRecord sch s cur (rawOf inp) v)) id = true
          have hcand : cand ≠ "" := extract_some_ne hex
          have hnoc := validate_accepted_no_conflict hval
          have hgoal : answeredNonEmpty (advance sch (acceptRecord sch s cur (rawOf inp) v)) id =
              answeredNonEmpty (setAnswers s (acceptUpdate sch cur v)) id := by
            apply answeredNonEmpty_eq_of_getAnswer
            rw [getAnswer_advance]
            rfl
          rw [hgoal]
          cases hl : s.answers.lookup id with
          | none =>
            exfalso
            rw [getAnswer_lookup_none hl] at hw
            cases hw
          | some a =>
            have hsa : getAnswer s id = a := by unfold getAnswer; rw [hl]; rfl
            have hx : getAnswer (setAnswers s (acceptUpdate sch cur v)) id =
                acceptUpdate sch cur v id a := getAnswer_setAnswers_some hl
            have hbe : (id == cur.id) = false := beq_eq_false_iff_ne.mpr hidne
            cases hcg : cur.group with
            | none =>
              have hupd : acceptUpdate sch cur v id a = a := by
                unfold acceptUpdate
                rw [hbe]
                simp only [Bool.false_eq_true, if_false, hcg]
              rw [answeredNonEmpty_eq_of_getAnswer ((hx.trans hupd).trans hsa.symm)]
              exact h
            | some g =>
              by_cases hin : idInSelectOneGroup sch id g.key = true
              · exfalso
                obtain ⟨x, hxmem, hxid, hxg⟩ := idInSelectOneGroup_elim hin
                have hxane : answeredNonEmpty s x.id = true := by rw [hxid]; exact h
                have hns := no_conflict_no_sibling hnoc hcand hcg x hxmem
                  (by rw [hxid]; exact hidne) hxg
                rw [hxane] at hns
                cases hns
              · have hupd : acceptUpdate sch cur v id a = a := by
                  unfold acceptUpdate
                  rw [hbe]
                  simp only [Bool.false_eq_true, if_false, hcg]
                  rw [if_neg hin]
                rw [answeredNonEmpty_eq_of_getAnswer ((hx.trans hupd).trans hsa.symm)]
                exact h
  }

/-! ## Lemmas: field offering order -/

theorem groupResolved_step_mono {sch : FormSchema} {s : Session} {inp : TurnInput}
    {k : String} (h : groupResolved sch s k = true) :
    groupResolved sch (processTurn sch s inp) k = true := by
  obtain ⟨x, hx, hxg, hxa⟩ := groupResolved_elim h
  exact groupResolved_intro hx hxg (step_answeredNE_mono hxa)

theorem askable_step_antitone {sch : FormSchema} {s : Session} {inp : TurnInput}
    {f : SField} (h : askable sch (processTurn sch s inp) f = true) :
    askable sch s f = true := by
  unfold askable at h ⊢
  rcases Bool.and_eq_true_iff.mp h with ⟨h1, h2⟩
  have hu : getAnswer s f.id = .unanswered := step_unanswered_mono (eq_of_beq h1)
  rw [hu]
  have hgb : groupBlocked sch s f = false := by
    cases hb : groupBlocked sch s f
    · rfl
    · exfalso
      unfold groupBlocked at hb
      cases hfg : f.group with
      | none => simp only [hfg] at hb; cases hb
      | some g =>
        simp only [hfg] at hb
        have h3 : groupResolved sch (processTurn sch s inp) g.key = true :=
          groupResolved_step_mono hb
        have h4 : groupBlocked sch (processTurn sch s inp) f = false := by
          cases hgb2 : groupBlocked sch (processTurn sch s inp) f
          · rfl
          · rw [hgb2] at h2; cases h2
        unfold groupBlocked at h4
        simp only [hfg] at h4
        rw [h3] at h4
        cases h4
  rw [hgb]
  rfl

theorem currentField_step_le {sch : FormSchema} {s : Session} {inp : TurnInput}
    {f g : SField} (hf : currentField sch s = some f)
    (hg : currentField sch (processTurn sch s inp) = some g) :
    f.tabOrder ≤ g.tabOrder := by
  have hmem := (currentField_mem hg).1
  have hask := askable_step_antitone (currentField_mem hg).2
  exact currentField_le hf g hmem hask

theorem currentField_none_step {sch : FormSchema} {s : Session} {inp : TurnInput}
    (h : currentField sch s = none) :
    currentField sch (processTurn sch s inp) = none := by
  unfold processTurn
  cases hst : s.status
  case complete => exact h
  case failed => exact h
  all_goals {
    show currentField sch
      (match currentField sch s with
       | none => advance sch s
       | some cur =>
         match extract inp with
         | none => handleFailure sch s cur (rawOf inp) .noMatch
         | some cand =>
           match validate sch s cur cand with
           | .accepted v => advance sch (acceptRecord sch s cur (rawOf inp) v)
           | .rejected r => handleFailure sch s cur (rawOf inp) r) = none
    rw [h]
    exact (currentField_congr (advance_answers sch s)).trans h
  }

theorem currentField_none_run {sch : FormSchema} (inps : List TurnInput) :
    ∀ {s : Session}, currentField sch s = none →
      currentField sch (runTurns sch s inps) = none := by
  induction inps with
  | nil => intro s h; exact h
  | cons i rest ih => intro s h; exact ih (currentField_none_step h)

theorem currentField_run_le {sch : FormSchema} (inps : List TurnInput) :
    ∀ {s : Session} {f g : SField}, currentField sch s = some f →
      currentField sch (runTurns sch s inps) = some g → f.tabOrder ≤ g.tabOrder := by
  induction inps with
  | nil =>
    intro s f g h1 h2
    have h2' : currentField sch s = some g := h2
    rw [h1] at h2'
    injection h2' with h2'
    rw [h2']
  | cons i rest ih =>
    intro s f g h1 h2
    have h2' : currentField sch (runTurns sch (processTurn sch s i) rest) = some g := h2
    cases hc : currentField sch (processTurn sch s i) with
    | none => rw [currentField_none_run rest hc] at h2'; cases h2'
    | some m => exact le_trans (currentField_step_le h1 hc) (ih hc h2')

/-! ## Lemmas: evaluation of a single turn -/

theorem processTurn_to_handleFailure {sch : FormSchema} {s : Session} {inp : TurnInput}
    {cur : SField}
    (hst : s.status = .inProgress ∨ s.status = .awaitingClarification)
    (hcf : currentField sch s = some cur) (hex : extract inp = none) :
    processTurn sch s inp = handleFailure sch s cur (rawOf inp) .noMatch := by
  unfold processTurn
  cases hs : s.status
  case complete => rcases hst with h | h <;> (rw [hs] at h; cases h)
  case failed => rcases hst with h | h <;> (rw [hs] at h; cases h)
  all_goals {
    show (match currentField sch s with
       | none => advance sch s
       | some cur =>
         match extract inp with
         | none => handleFailure sch s cur (rawOf inp) .noMatch
         | some cand =>
           match validate sch s cur cand with
           | .accepted v => advance sch (acceptRecord sch s cur (rawOf inp) v)
           | .rejected r => handleFailure sch s cur (rawOf inp) r) = _
    rw [hcf, hex]
  }

theorem processTurn_to_accept {sch : FormSchema} {s : Session} {inp : TurnInput}
    {cur : SField} {cand v : String}
    (hst : s.status = .inProgress ∨ s.status = .awaitingClarification)
    (hcf : currentField sch s = some cur) (hex : extract inp = some cand)
    (hval : validate sch s cur cand = .accepted v) :
    processTurn sch s inp = advance sch (acceptRecord sch s cur (rawOf inp) v) := by
  unfold processTurn
  cases hs : s.status
  case complete => rcases hst with h | h <;> (rw [hs] at h; cases h)
  case failed => rcases hst with h | h <;> (rw [hs] at h; cases h)
  all_goals {
    show (match currentField sch s with
       | none => advance sch s
       | some cur =>
         match extract inp with
         | none => handleFailure sch s cur (rawOf inp) .noMatch
         | some cand =>
           match validate sch s cur cand with
           | .accepted v => advance sch (acceptRecord sch s cur (rawOf inp) v)
           | .rejected r => handleFailure sch s cur (rawOf inp) r) = _
    rw [hcf, hex]
    show (match validate sch s cur cand with
       | .accepted v => advance sch (acceptRecord sch s cur (rawOf inp) v)
       | .rejected r => handleFailure sch s cur (rawOf inp) r) = _
    rw [hval]
  }

theorem handleFailure_low {sch : FormSchema} {s : Session} {cur : SField}
    {raw : String} {r : RejectReason} (hlow : ¬ 3 ≤ getRetry s cur.id + 1) :
    handleFailure sch s cur raw r =
      { failRecord s cur raw r with
        status := .awaitingClarification, cursor := some cur.id } := by
  unfold handleFailure
  rw [if_neg hlow]

theorem handleFailure_skip {sch : FormSchema} {s : Session} {cur : SField}
    {raw : String} {r : RejectReason} (hhigh : 3 ≤ getRetry s cur.id + 1)
    (hreq : cur.required = false) :
    handleFailure sch s cur raw r =
      advance sch (setAnswers (failRecord s cur raw r)
        (fun j b => if j == cur.id then .skipped else b)) := by
  unfold handleFailure
  rw [if_pos hhigh, if_neg (by rw [hreq]; intro hc; cases hc)]

theorem answeredNonEmpty_skipX {s : Session} {cur : SField} (raw : String)
    (r : RejectReason) (hunans : getAnswer s cur.id = .unanswered) (id : String) :
    answeredNonEmpty
      (setAnswers (failRecord s cur raw r) (fun j b => if j == cur.id then .skipped else b))
      id = answeredNonEmpty s id := by
  by_cases hid : id = cur.id
  · subst hid
    unfold answeredNonEmpty
    cases hl : s.answers.lookup cur.id with
    | none =>
      have hl' : (failRecord s cur raw r).answers.lookup cur.id = none := hl
      rw [getAnswer_setAnswers_none hl', getAnswer_lookup_none hl]
    | some a =>
      rw [getAnswer_skip_self raw r hl, hunans]
  · unfold answeredNonEmpty
    rw [getAnswer_skip_other raw r hid]

theorem allRequiredDone_of_no_current {sch : FormSchema} {X : Session} (HX : Inv sch X)
    (hcx : currentField sch X = none) : allRequiredDone sch X = true := by
  unfold allRequiredDone
  rw [List.all_eq_true]
  intro f hf
  cases hreq : f.required
  · rfl
  · cases ha : getAnswer X f.id with
    | answered v => simp
    | notSelected => simp
    | skipped => exact absurd ha (HX.reqNotSkipped f hf hreq)
    | unanswered =>
      exfalso
      have hask : askable sch X f = true := by
        unfold askable
        rw [ha, HX.unansweredFree f hf ha]
        rfl
      have hmemf : f ∈ sch.fields.filter (askable sch X) := List.mem_filter.mpr ⟨hf, hask⟩
      unfold currentField at hcx
      rw [pickMin_none hcx] at hmemf
      cases hmemf

/-! ## Claim theorems -/

/-- C1: for the medical-intake schema with fields name (text, required,
tabOrder 1) and dob (date, required, tabOrder 2), processing the utterances
"Youdahe Asfaw" and then "04/29/2006" completes the session and assembles a
document in which name is "Youdahe Asfaw" and dob is normalized to
"2006-04-29". -/
theorem claimC1_scenarioA :
    sessionA.status = .complete ∧
    assemble medicalSchema sessionA =
      some
        { formId := "form_001", title := "Medical Intake Form"
          values := [("name", .filled "Youdahe Asfaw"), ("dob", .filled "2006-04-29")] } := by
  constructor
  · rfl
  · rfl

/-- C5: for the single-select gender field with options Male, Female, Other,
the utterance "banana" is rejected with reason NotInOptionSet, the retry
counter increments and the field stays unanswered; the subsequent utterance
"Male" is accepted with the value normalized to the canonical option string
"Male", the matching being case-insensitive. -/
theorem claimC5_scenarioB :
    sessionB1.history = [("gender", "banana", .rejectedOut .notInOptionSet)] ∧
    getRetry sessionB1 "gender" = 1 ∧
    getAnswer sessionB1 "gender" = .unanswered ∧
    getAnswer sessionB2 "gender" = .answered "Male" ∧
    matchOption ["Male", "Female", "Other"] "MALE" = .accepted "Male" := by
  refine ⟨rfl, rfl, rfl, rfl, ?_⟩
  decide

/-- C8: assemble is a pure function of the Session and Schema — its output
depends only on the answers and status of the session — and calling it
twice on the same completed session yields byte-identical rendered output. -/
theorem claimC8_assemble_pure (sch : FormSchema) (s s' : Session)
    (ha : s.answers = s'.answers) (hstat : s.status = s'.status) :
    assemble sch s = assemble sch s' ∧
    ∀ d d', assemble sch s = some d → assemble sch s' = some d' →
      renderForm d = renderForm d' := by
  have he : assemble sch s = assemble sch s' := by
    unfold assemble
    rw [hstat]
    by_cases hc : s'.status = .complete
    · simp only [if_pos hc]
      have hmap : (fun f : SField => (f.id, docValueOf (getAnswer s f.id))) =
          (fun f : SField => (f.id, docValueOf (getAnswer s' f.id))) :=
        funext fun f => by rw [getAnswer_congr ha]
      rw [hmap]
    · simp only [if_neg hc]
  refine ⟨he, ?_⟩
  intro d d' hd hd'
  rw [hd, hd'] at he
  injection he with he
  rw [he]

/-- C9: no execution of the script ever assigns to any field's value in the
schema object: whatever the five chat-completion calls return or throw, the
final program state carries the `jsonSchema` literal unchanged and every
field's value is still null. -/
theorem claimC9_schema_unchanged :
    ∀ oracle : Oracle,
      (getResponse oracle initialState).schema = jsonSchema ∧
      ∀ f ∈ (getResponse oracle initialState).schema.fields, f.value = none := by
  intro oracle
  have hsch : (getResponse oracle initialState).schema = jsonSchema := by
    unfold getResponse
    cases oracle 0 with
    | error e => rfl
    | ok r0 =>
      cases oracle 1 with
      | error e => rfl
      | ok r1 =>
        cases oracle 2 with
        | error e => rfl
        | ok r2 =>
          cases oracle 3 with
          | error e => rfl
          | ok r3 =>
            cases oracle 4 with
            | error e => rfl
            | ok r4 => rfl
  refine ⟨hsch, ?_⟩
  have hall : ∀ f ∈ jsonSchema.fields, f.value = none := by decide
  intro f hf
  rw [hsch] at hf
  exact hall f hf

/-- C9 witness: the guarantee evaluated at the all-successful oracle and the
first schema field. -/
theorem claimC9_schema_unchanged_w :
    (getResponse okOracle initialState).schema = jsonSchema ∧
    (jsonSchema.fields.get ⟨0, by decide⟩).value = none :=
  ⟨(claimC9_schema_unchanged okOracle).1,
   (claimC9_schema_unchanged okOracle).2 (jsonSchema.fields.get ⟨0, by decide⟩) (by decide)⟩

/-- C10 counterexample: when the first chat-completion call throws, the
catch block ends the run and no user-role message is appended at all, so
the appended user lines are not the three scripted constants. -/
theorem claimC10_counter :
    userAppended (getResponse failOracle initialState) ≠ scriptedUserLines := by
  decide

/-- C10 (amended): the user-role messages appended to the conversation log
are always a prefix of the three constants "Youdahe Asfaw", "04/29/2006",
"Male", independent of what the language model replies; in every execution
in which all five chat-completion calls succeed they are exactly those
three, in order. -/
theorem claimC10_scripted_user_lines :
    ∀ oracle : Oracle,
      (∃ k, userAppended (getResponse oracle initialState) = scriptedUserLines.take k) ∧
      ((∀ i, i < 5 → ∃ r, oracle i = .ok r) →
        userAppended (getResponse oracle initialState) = scriptedUserLines) := by
  intro oracle
  unfold getResponse
  cases h0 : oracle 0 with
  | error e =>
    refine ⟨⟨0, rfl⟩, ?_⟩
    intro hok
    obtain ⟨r, hr⟩ := hok 0 (by omega)
    rw [h0] at hr
    cases hr
  | ok r0 =>
    cases h1 : oracle 1 with
    | error e =>
      refine ⟨⟨1, rfl⟩, ?_⟩
      intro hok
      obtain ⟨r, hr⟩ := hok 1 (by omega)
      rw [h1] at hr
      cases hr
    | ok r1 =>
      cases h2 : oracle 2 with
      | error e =>
        refine ⟨⟨2, rfl⟩, ?_⟩
        intro hok
        obtain ⟨r, hr⟩ := hok 2 (by omega)
        rw [h2] at hr
        cases hr
      | ok r2 =>
        cases h3 : oracle 3 with
        | error e =>
          refine ⟨⟨2, rfl⟩, ?_⟩
          intro hok
          obtain ⟨r, hr⟩ := hok 3 (by omega)
          rw [h3] at hr
          cases hr
        | ok r3 =>
          cases h4 : oracle 4 with
          | error e =>
            refine ⟨⟨3, rfl⟩, ?_⟩
            intro hok
            obtain ⟨r, hr⟩ := hok 4 (by omega)
            rw [h4] at hr
            cases hr
          | ok r4 => exact ⟨⟨3, rfl⟩, fun _ => rfl⟩

/-- C10 witness: with every call succeeding, exactly the three scripted
user lines are appended. -/
theorem claimC10_scripted_user_lines_w :
    userAppended (getResponse okOracle initialState) = scriptedUserLines :=
  (claimC10_scripted_user_lines okOracle).2 (fun _ _ => ⟨"ok", rfl⟩)

/-- C8 witness: two sessions agreeing on answers and status — the completed
Scenario A session and a copy with the history, cursor and retry counters
wiped — assemble to the same document, hence byte-identical renderings. -/
theorem claimC8_assemble_pure_w :
    assemble medicalSchema sessionA = assemble medicalSchema sessionA' ∧
    renderForm
        { formId := "form_001", title := "Medical Intake Form"
          values := [("name", .filled "Youdahe Asfaw"), ("dob", .filled "2006-04-29")] } =
      renderForm
        { formId := "form_001", title := "Medical Intake Form"
          values := [("name", .filled "Youdahe Asfaw"), ("dob", .filled "2006-04-29")] } :=
  ⟨(claimC8_assemble_pure medicalSchema sessionA sessionA' rfl rfl).1,
   (claimC8_assemble_pure medicalSchema sessionA sessionA' rfl rfl).2 _ _ rfl rfl⟩

/-- C2: for every schema with unique field ids and every orchestrator run
that reaches completion, the assembled document never gives a required
field an empty value. -/
theorem claimC2_required_nonempty (sch : FormSchema)
    (hn : (sch.fields.map (fun f => f.id)).Nodup) (inps : List TurnInput)
    (doc : FilledForm) (hdoc : assemble sch (reaches sch inps) = some doc)
    (f : SField) (hf : f ∈ sch.fields) (hr : f.required = true)
    (dv : DocValue) (hdv : (f.id, dv) ∈ doc.values) :
    dv.isEmptyVal = false := by
  have H := inv_reaches hn inps
  unfold assemble at hdoc
  by_cases hc : (reaches sch inps).status = .complete
  case neg => rw [if_neg hc] at hdoc; cases hdoc
  rw [if_pos hc] at hdoc
  injection hdoc with hdoc
  rw [← hdoc] at hdv
  have hdv' : (f.id, dv) ∈ sch.fields.map
      (fun g => (g.id, docValueOf (getAnswer (reaches sch inps) g.id))) := hdv
  obtain ⟨g, hg, hgp⟩ := List.mem_map.mp hdv'
  rw [Prod.mk.injEq] at hgp
  obtain ⟨hid, hdvv⟩ := hgp
  rw [hid] at hdvv
  have hard := H.completeDone hc
  unfold allRequiredDone at hard
  have hfd := List.all_eq_true.mp hard f hf
  simp only [hr, Bool.not_true, Bool.false_or] at hfd
  cases ha : getAnswer (reaches sch inps) f.id with
  | answered v =>
    have hvne := H.ansNE f.id v ha
    rw [ha] at hdvv
    rw [← hdvv]
    unfold DocValue.isEmptyVal docValueOf
    simp [hvne]
  | notSelected =>
    rw [ha] at hdvv
    rw [← hdvv]
    rfl
  | unanswered => rw [ha] at hfd; cases hfd
  | skipped => rw [ha] at hfd; cases hfd

/-- C2 witness: the Scenario A run completes with required field name
holding the non-empty value "Youdahe Asfaw". -/
theorem claimC2_required_nonempty_w :
    (DocValue.filled "Youdahe Asfaw").isEmptyVal = false :=
  claimC2_required_nonempty medicalSchema (by decide) scenarioA
    { formId := "form_001", title := "Medical Intake Form"
      values := [("name", .filled "Youdahe Asfaw"), ("dob", .filled "2006-04-29")] }
    (by rfl) nameField (by decide) (by decide) (.filled "Youdahe Asfaw") (by decide)

/-- C3: for every schema with unique field ids, fields are offered by the
orchestrator in non-decreasing tabOrder along any run, and a required field
is never put in the skipped state. -/
theorem claimC3_order_required (sch : FormSchema)
    (hn : (sch.fields.map (fun f => f.id)).Nodup) :
    (∀ (inps extra : List TurnInput) (f g : SField),
      currentField sch (reaches sch inps) = some f →
      currentField sch (reaches sch (inps ++ extra)) = some g →
      f.tabOrder ≤ g.tabOrder) ∧
    (∀ (inps : List TurnInput), ∀ h ∈ sch.fields, h.required = true →
      getAnswer (reaches sch inps) h.id ≠ .skipped) := by
  constructor
  · intro inps extra f g hf hg
    have hr : reaches sch (inps ++ extra) = runTurns sch (reaches sch inps) extra := by
      unfold reaches runTurns
      rw [List.foldl_append]
    rw [hr] at hg
    exact currentField_run_le extra hf hg
  · intro inps h hmem hreq
    exact (inv_reaches hn inps).reqNotSkipped h hmem hreq

/-- C3 witness: in the Scenario A run, the name field (tabOrder 1) is
offered before the dob field (tabOrder 2), and the required name field is
never skipped. -/
theorem claimC3_order_required_w :
    nameField.tabOrder ≤ dobField.tabOrder ∧
    getAnswer (reaches medicalSchema []) nameField.id ≠ .skipped :=
  ⟨(claimC3_order_required medicalSchema (by decide)).1 [] [.utter "Youdahe Asfaw"]
      nameField dobField (by rfl) (by rfl),
   (claimC3_order_required medicalSchema (by decide)).2 [] nameField (by decide) (by decide)⟩

/-- C4: schema construction fails with a SchemaError whenever the raw
definition has a duplicated field id, a select field with an empty option
list, a duplicated tabOrder, or a grouping rule referencing an absent
field; otherwise it produces a schema whose field ids and tabOrders are
unique. -/
theorem claimC4_mkSchema (raw : RawSchema) :
    (RawBad raw → ∃ e, mkSchema raw = .error e) ∧
    (¬ RawBad raw → ∃ sch, mkSchema raw = .ok sch ∧
      (sch.fields.map (fun f => f.id)).Nodup ∧
      (sch.fields.map (fun f => f.tabOrder)).Nodup) := by
  constructor
  · intro hbad
    unfold mkSchema
    by_cases h1 : (raw.fields.map (fun f => f.id)).Nodup
    case neg => rw [if_pos h1]; exact ⟨_, rfl⟩
    rw [if_neg (not_not_intro h1)]
    by_cases h2 : raw.fields.any (fun f => isSelect f.ftype && f.options.isEmpty) = true
    case pos => rw [if_pos h2]; exact ⟨_, rfl⟩
    rw [if_neg h2]
    by_cases h3 : (raw.fields.map (fun f => f.tabOrder)).Nodup
    case neg => rw [if_pos h3]; exact ⟨_, rfl⟩
    rw [if_neg (not_not_intro h3)]
    by_cases h4 : raw.groups.any
        (fun g => g.members.any (fun m => !(raw.fields.any (fun f => f.id == m)))) = true
    case pos => rw [if_pos h4]; exact ⟨_, rfl⟩
    rw [if_neg h4]
    exfalso
    rcases hbad with d1 | d2 | d3 | d4
    · exact d1 h1
    · apply h2
      obtain ⟨f, hf, hsel, hopt⟩ := d2
      rw [List.any_eq_true]
      exact ⟨f, hf, by rw [hsel, hopt]; rfl⟩
    · exact d3 h3
    · apply h4
      obtain ⟨g, hg, m, hm, hnm⟩ := d4
      rw [List.any_eq_true]
      refine ⟨g, hg, ?_⟩
      rw [List.any_eq_true]
      refine ⟨m, hm, ?_⟩
      have : raw.fields.any (fun f => f.id == m) = false := by
        cases hc : raw.fields.any (fun f => f.id == m)
        · rfl
        · exfalso
          rw [List.any_eq_true] at hc
          obtain ⟨f, hf, hfm⟩ := hc
          exact hnm (List.mem_map.mpr ⟨f, hf, eq_of_beq hfm⟩)
      rw [this]
      rfl
  · intro hgood
    have h1 : (raw.fields.map (fun f => f.id)).Nodup := by
      by_contra hc
      exact hgood (Or.inl hc)
    have h2 : raw.fields.any (fun f => isSelect f.ftype && f.options.isEmpty) = false := by
      cases hc : raw.fields.any (fun f => isSelect f.ftype && f.options.isEmpty)
      · rfl
      · exfalso
        rw [List.any_eq_true] at hc
        obtain ⟨f, hf, hp⟩ := hc
        rcases Bool.and_eq_true_iff.mp hp with ⟨hs, he⟩
        exact hgood (Or.inr (Or.inl ⟨f, hf, hs, by
          cases hol : f.options
          · rfl
          · rw [hol] at he; cases he⟩))
    have h3 : (raw.fields.map (fun f => f.tabOrder)).Nodup := by
      by_contra hc
      exact hgood (Or.inr (Or.inr (Or.inl hc)))
    have h4 : raw.groups.any
        (fun g => g.members.any (fun m => !(raw.fields.any (fun f => f.id == m)))) = false := by
      cases hc : raw.groups.any
          (fun g => g.members.any (fun m => !(raw.fields.any (fun f => f.id == m))))
      · rfl
      · exfalso
        rw [List.any_eq_true] at hc
        obtain ⟨g, hg, hp⟩ := hc
        rw [List.any_eq_true] at hp
        obtain ⟨m, hm, hq⟩ := hp
        apply hgood
        refine Or.inr (Or.inr (Or.inr ⟨g, hg, m, hm, ?_⟩))
        intro hmem
        obtain ⟨f, hf, hfm⟩ := List.mem_map.mp hmem
        have : raw.fields.any (fun f => f.id == m) = true := by
          rw [List.any_eq_true]
          exact ⟨f, hf, by rw [hfm]; exact beq_self_eq_true m⟩
        rw [this] at hq
        cases hq
    unfold mkSchema
    rw [if_neg (not_not_intro h1), if_neg (by rw [h2]; intro hc; cases hc),
      if_neg (not_not_intro h3), if_neg (by rw [h4]; intro hc; cases hc)]
    refine ⟨_, rfl, ?_, ?_⟩
    · rw [List.map_map]
      exact h1
    · rw [List.map_map]
      exact h3

/-- C4 witness: the raw medical-intake definition is well-formed, so schema
construction succeeds with unique ids and tabOrders. -/
theorem claimC4_mkSchema_w :
    ∃ sch, mkSchema medicalRaw = .ok sch ∧
      (sch.fields.map (fun f => f.id)).Nodup ∧
      (sch.fields.map (fun f => f.tabOrder)).Nodup :=
  (claimC4_mkSchema medicalRaw).2 (by
    intro hbad
    rcases hbad with d1 | d2 | d3 | d4
    · exact d1 (by decide)
    · obtain ⟨f, hf, hsel, _⟩ := d2
      fin_cases hf <;> exact absurd hsel (by decide)
    · exact d3 (by decide)
    · obtain ⟨g, hg, _⟩ := d4
      exact (List.not_mem_nil g) hg)

theorem step_timeout_low {sch : FormSchema} (hn : (sch.fields.map (fun f => f.id)).Nodup)
    {s : Session} (H : Inv sch s) {cur : SField}
    (hst : s.status = .inProgress ∨ s.status = .awaitingClarification)
    (hcf : currentField sch s = some cur)
    (hlow : ¬ 3 ≤ getRetry s cur.id + 1) :
    Inv sch (processTurn sch s .timeout) ∧
    (processTurn sch s .timeout).answers = s.answers ∧
    (processTurn sch s .timeout).status = .awaitingClarification ∧
    getRetry (processTurn sch s .timeout) cur.id = getRetry s cur.id + 1 := by
  have hmem := (currentField_mem hcf).1
  have e := (processTurn_to_handleFailure hst hcf
    (rfl : extract TurnInput.timeout = none)).trans (handleFailure_low hlow)
  refine ⟨inv_processTurn hn H .timeout, ?_, ?_, ?_⟩
  · rw [e]
    rfl
  · rw [e]
  · rw [e]
    exact getRetry_bump_self s cur.id (lookup_retries_some H.keysR hmem)

/-- C7: a timeout of the language-understanding call is treated as NoMatch
rather than a crash, and after 3 consecutive extraction failures on a
non-required field the field is marked skipped and the session proceeds
past it without entering the failed state. -/
theorem claimC7_timeout_skip (sch : FormSchema)
    (hn : (sch.fields.map (fun f => f.id)).Nodup) :
    extract .timeout = none ∧
    ∀ (inps : List TurnInput) (cur : SField),
      (reaches sch inps).status = .inProgress ∨
        (reaches sch inps).status = .awaitingClarification →
      currentField sch (reaches sch inps) = some cur →
      cur.required = false →
      getRetry (reaches sch inps) cur.id = 0 →
      getAnswer (runTurns sch (reaches sch inps) [.timeout, .timeout, .timeout]) cur.id
          = .skipped ∧
      (runTurns sch (reaches sch inps) [.timeout, .timeout, .timeout]).status ≠ .failed ∧
      currentField sch (runTurns sch (reaches sch inps) [.timeout, .timeout, .timeout])
          ≠ some cur := by
  refine ⟨rfl, ?_⟩
  intro inps cur hst hcf hreq hret
  have H := inv_reaches hn inps
  have hmem := (currentField_mem hcf).1
  have hunans := askable_unanswered (currentField_mem hcf).2
  obtain ⟨H1, ha1, hst1, hr1⟩ := step_timeout_low hn H hst hcf (by rw [hret]; omega)
  have hcf1 : currentField sch (processTurn sch (reaches sch inps) .timeout) = some cur :=
    (currentField_congr ha1).trans hcf
  obtain ⟨H2, ha2, hst2, hr2⟩ :=
    step_timeout_low hn H1 (Or.inr hst1) hcf1 (by rw [hr1, hret]; omega)
  have hcf2 : currentField sch
      (processTurn sch (processTurn sch (reaches sch inps) .timeout) .timeout) = some cur :=
    (currentField_congr ha2).trans hcf1
  have hst2ne : (processTurn sch (processTurn sch (reaches sch inps) .timeout)
      .timeout).status ≠ .complete := by
    rw [hst2]
    intro hc
    cases hc
  have hhigh : 3 ≤ getRetry
      (processTurn sch (processTurn sch (reaches sch inps) .timeout) .timeout) cur.id + 1 := by
    rw [hr2, hr1, hret]
  have e3 := (processTurn_to_handleFailure (Or.inr hst2) hcf2
    (rfl : extract TurnInput.timeout = none)).trans (handleFailure_skip hhigh hreq)
  have hrun : runTurns sch (reaches sch inps) [.timeout, .timeout, .timeout] =
      processTurn sch (processTurn sch (processTurn sch (reaches sch inps) .timeout)
        .timeout) .timeout := rfl
  have hunans2 : getAnswer
      (processTurn sch (processTurn sch (reaches sch inps) .timeout) .timeout) cur.id =
      .unanswered :=
    (getAnswer_congr ha2 cur.id).trans ((getAnswer_congr ha1 cur.id).trans hunans)
  have hl2 := lookup_answers_some H2.keysA hmem
  have hskip : getAnswer
      (setAnswers
        (failRecord (processTurn sch (processTurn sch (reaches sch inps) .timeout) .timeout)
          cur (rawOf .timeout) .noMatch)
        (fun j b => if j == cur.id then .skipped else b)) cur.id = .skipped :=
    getAnswer_skip_self (rawOf .timeout) .noMatch hl2
  have HX : Inv sch
      (setAnswers
        (failRecord (processTurn sch (processTurn sch (reaches sch inps) .timeout) .timeout)
          cur (rawOf .timeout) .noMatch)
        (fun j b => if j == cur.id then .skipped else b)) :=
    inv_skip hn H2 hmem hunans2 hreq hst2ne (rawOf .timeout) .noMatch
  refine ⟨?_, ?_, ?_⟩
  · rw [hrun, e3, getAnswer_advance]
    exact hskip
  · rw [hrun, e3]
    cases hcx : currentField sch
        (setAnswers
          (failRecord (processTurn sch (processTurn sch (reaches sch inps) .timeout) .timeout)
            cur (rawOf .timeout) .noMatch)
          (fun j b => if j == cur.id then .skipped else b)) with
    | some f =>
      unfold advance
      simp only [hcx]
      intro hc
      cases hc
    | none =>
      unfold advance
      simp only [hcx]
      rw [if_pos (allRequiredDone_of_no_current HX hcx)]
      intro hc
      cases hc
  · rw [hrun, e3]
    intro hc
    have hcx : currentField sch
        (setAnswers
          (failRecord (processTurn sch (processTurn sch (reaches sch inps) .timeout) .timeout)
            cur (rawOf .timeout) .noMatch)
          (fun j b => if j == cur.id then .skipped else b)) = some cur :=
      (currentField_congr (advance_answers sch _)).symm.trans hc
    have hask := askable_unanswered (currentField_mem hcx).2
    rw [hskip] at hask
    cases hask

/-- C7 witness: three consecutive timeouts on the non-required gender field
leave it skipped, the session not failed, and the field no longer offered. -/
theorem claimC7_timeout_skip_w :
    getAnswer (runTurns genderSchema (reaches genderSchema [])
        [.timeout, .timeout, .timeout]) genderField.id = .skipped ∧
    (runTurns genderSchema (reaches genderSchema [])
        [.timeout, .timeout, .timeout]).status ≠ .failed ∧
    currentField genderSchema (runTurns genderSchema (reaches genderSchema [])
        [.timeout, .timeout, .timeout]) ≠ some genderField :=
  (claimC7_timeout_skip genderSchema (by decide)).2 [] genderField
    (Or.inl (by rfl)) (by rfl) (by decide) (by decide)

/-- C6: for every selectOne group in a schema with unique field ids:
an attempt to give a field of the group a non-empty value while a sibling
already holds one is rejected with reason GroupConflict; when a grouped
field's value is accepted every sibling is set to the explicit not-selected
state; and in every completed document at most one field of the group
holds a non-empty value. -/
theorem claimC6_selectOne (sch : FormSchema)
    (hn : (sch.fields.map (fun f => f.id)).Nodup) :
    (∀ (s : Session) (f : SField) (k cand : String),
      f.group = some ⟨k, .selectOne⟩ → cand ≠ "" →
      (∃ x ∈ sch.fields, x.id ≠ f.id ∧ inSelectOneGroup x k = true ∧
        answeredNonEmpty s x.id = true) →
      validate sch s f cand = .rejected .groupConflict) ∧
    (∀ (inps : List TurnInput) (inp : TurnInput) (cur : SField) (cand v k : String)
      (g : SField),
      (reaches sch inps).status = .inProgress ∨
        (reaches sch inps).status = .awaitingClarification →
      currentField sch (reaches sch inps) = some cur →
      cur.group = some ⟨k, .selectOne⟩ →
      extract inp = some cand →
      validate sch (reaches sch inps) cur cand = .accepted v →
      g ∈ sch.fields → g.id ≠ cur.id → inSelectOneGroup g k = true →
      getAnswer (processTurn sch (reaches sch inps) inp) g.id = .notSelected) ∧
    (∀ (inps : List TurnInput) (doc : FilledForm) (f g : SField) (vf vg : String),
      assemble sch (reaches sch inps) = some doc →
      f ∈ sch.fields → g ∈ sch.fields → sameSelectOne f g →
      (f.id, DocValue.filled vf) ∈ doc.values → vf ≠ "" →
      (g.id, DocValue.filled vg) ∈ doc.values → vg ≠ "" →
      f.id = g.id) := by
  refine ⟨?_, ?_, ?_⟩
  · intro s f k cand hg hcand hsib
    have hconf : conflictsGroup sch s f cand = true := by
      unfold conflictsGroup
      simp only [hg]
      rw [Bool.and_eq_true_iff]
      constructor
      · cases hc : cand == ""
        · rfl
        · exact absurd (eq_of_beq hc) hcand
      · rw [List.any_eq_true]
        obtain ⟨x, hx, hne, hgrp, hane⟩ := hsib
        refine ⟨x, hx, ?_⟩
        rw [beq_eq_false_iff_ne.mpr hne, hgrp, hane]
        rfl
    unfold validate
    rw [if_pos hconf]
  · intro inps inp cur cand v k g hst hcf hcurg hex hval hg hne hgin
    have H := inv_reaches hn inps
    rw [processTurn_to_accept hst hcf hex hval, getAnswer_advance]
    have hacc : getAnswer (acceptRecord sch (reaches sch inps) cur (rawOf inp) v) g.id =
        getAnswer (setAnswers (reaches sch inps) (acceptUpdate sch cur v)) g.id := rfl
    rw [hacc]
    exact getAnswer_accept_sibling (lookup_answers_some H.keysA hg) hne hcurg
      (idInSelectOneGroup_of_mem hg hgin)
  · intro inps doc f g vf vg hdoc hf hg hsame hfv hvfne hgv hvgne
    have H := inv_reaches hn inps
    unfold assemble at hdoc
    by_cases hc : (reaches sch inps).status = .complete
    case neg => rw [if_neg hc] at hdoc; cases hdoc
    rw [if_pos hc] at hdoc
    injection hdoc with hdoc
    rw [← hdoc] at hfv hgv
    have hfv' : (f.id, DocValue.filled vf) ∈ sch.fields.map
        (fun x => (x.id, docValueOf (getAnswer (reaches sch inps) x.id))) := hfv
    have hgv' : (g.id, DocValue.filled vg) ∈ sch.fields.map
        (fun x => (x.id, docValueOf (getAnswer (reaches sch inps) x.id))) := hgv
    have hfa : answeredNonEmpty (reaches sch inps) f.id = true := by
      obtain ⟨x, hx, hxp⟩ := List.mem_map.mp hfv'
      rw [Prod.mk.injEq] at hxp
      obtain ⟨hxid, hxv⟩ := hxp
      rw [hxid] at hxv
      cases ha : getAnswer (reaches sch inps) f.id with
      | answered w =>
        rw [ha] at hxv
        have hxv' : DocValue.filled w = DocValue.filled vf := hxv
        injection hxv' with hxv'
        exact answeredNonEmpty_intro ha (by rw [hxv']; exact hvfne)
      | unanswered => rw [ha] at hxv; cases hxv
      | notSelected => rw [ha] at hxv; cases hxv
      | skipped => rw [ha] at hxv; cases hxv
    have hga : answeredNonEmpty (reaches sch inps) g.id = true := by
      obtain ⟨x, hx, hxp⟩ := List.mem_map.mp hgv'
      rw [Prod.mk.injEq] at hxp
      obtain ⟨hxid, hxv⟩ := hxp
      rw [hxid] at hxv
      cases ha : getAnswer (reaches sch inps) g.id with
      | answered w =>
        rw [ha] at hxv
        have hxv' : DocValue.filled w = DocValue.filled vg := hxv
        injection hxv' with hxv'
        exact answeredNonEmpty_intro ha (by rw [hxv']; exact hvgne)
      | unanswered => rw [ha] at hxv; cases hxv
      | notSelected => rw [ha] at hxv; cases hxv
      | skipped => rw [ha] at hxv; cases hxv
    exact H.atMostOne f g hf hg hsame hfa hga

/-- C6 witness: in the race selectOne group, after race_asian is answered
"yes" a competing "yes" for race_black is rejected with GroupConflict, the
accepted turn sets the sibling race_black to not-selected, and the
completed document's uniqueness property holds at race_asian. -/
theorem claimC6_selectOne_w :
    validate raceSchema sessionR1 raceBlack "yes" = .rejected .groupConflict ∧
    getAnswer (processTurn raceSchema (reaches raceSchema []) (.utter "yes"))
        raceBlack.id = .notSelected ∧
    raceAsian.id = raceAsian.id := by
  refine ⟨?_, ?_, ?_⟩
  · exact (claimC6_selectOne raceSchema (by decide)).1 sessionR1 raceBlack "race" "yes"
      rfl (by decide) ⟨raceAsian, by decide, by decide, by decide, by decide⟩
  · exact (claimC6_selectOne raceSchema (by decide)).2.1 [] (.utter "yes") raceAsian
      "yes" "yes" "race" raceBlack (Or.inl rfl) rfl rfl (by decide) (by decide)
      (by decide) (by decide) (by decide)
  · exact (claimC6_selectOne raceSchema (by decide)).2.2 [.utter "yes"]
      { formId := "form_r", title := "Race Form"
        values := [("race_asian", .filled "yes"), ("race_black", .notSelected)] }
      raceAsian raceAsian "yes" "yes" rfl (by decide) (by decide)
      ⟨"race", rfl, rfl⟩ (by decide) (by decide) (by decide) (by decide)

end FormAccessor
